import Mathlib

/-!
Verification development for `dumpdiff.py`, a structural-diff tool that
compares two JSON crash-report documents (left = rust minidump-stackwalk
output, right = breakpad stackwalker output) and prints a line for every
unsuppressed divergence.

The Python source is embedded shallowly:

* JSON trees become the inductive type `Value`.
* Printing becomes accumulation of the formatted lines in a list.
* A raised Python exception becomes an `Option String` error component
  (`none` = normal termination), threaded with early exit, so a function
  result is `List String × Option String`: the lines printed before a
  possible uncaught exception, and the exception if one was raised.
* The mutually recursive walk of `diff_dicts` / `diff_lists` recurses
  through dictionary lookups, which Lean cannot see as structural; it is
  therefore driven by a structural fuel argument (`diffFuel`), and the
  public wrappers `diff_dicts` / `diff_lists` supply fuel that the
  development's lemmas show is never exhausted on the relevant inputs.
-/

/-- A JSON value as loaded by Python's `json.load`: `null`, booleans,
numbers (the documents at hand only use integers, so numbers are `Int`),
strings, arrays, and objects (association lists in insertion order, which
is how Python dicts iterate). -/
inductive Value where
  | null : Value
  | bool : Bool → Value
  | num : Int → Value
  | str : String → Value
  | arr : List Value → Value
  | dict : List (String × Value) → Value

mutual

/-- Executable structural size of a `Value`; used to compute sufficient
fuel for the recursions that Lean cannot check structurally. -/
def sizeV : Value → Nat
  | .null => 1
  | .bool _ => 1
  | .num _ => 1
  | .str _ => 1
  | .arr xs => 1 + sizeVL xs
  | .dict kvs => 1 + sizeVKV kvs

/-- Size of a list of values. -/
def sizeVL : List Value → Nat
  | [] => 0
  | v :: vs => 1 + sizeV v + sizeVL vs

/-- Size of an association list of values. -/
def sizeVKV : List (String × Value) → Nat
  | [] => 0
  | kv :: rest => 1 + sizeV kv.2 + sizeVKV rest

end

mutual

/-- Structural (decidable) equality test on `Value`. -/
def beqV : Value → Value → Bool
  | .null, .null => true
  | .bool a, .bool b => a == b
  | .num a, .num b => a == b
  | .str a, .str b => a == b
  | .arr a, .arr b => beqVL a b
  | .dict a, .dict b => beqVKV a b
  | _, _ => false

/-- Structural equality on lists of values. -/
def beqVL : List Value → List Value → Bool
  | [], [] => true
  | a :: as_, b :: bs => beqV a b && beqVL as_ bs
  | _, _ => false

/-- Structural equality on association lists of values. -/
def beqVKV : List (String × Value) → List (String × Value) → Bool
  | [], [] => true
  | a :: as_, b :: bs => (a.1 == b.1 && beqV a.2 b.2) && beqVKV as_ bs
  | _, _ => false

end

mutual

/-- Decidable equality on `Value` (the automatic deriving handler does
not support this nested inductive). -/
def decEqV : (a b : Value) → Decidable (a = b)
  | .null, .null => isTrue rfl
  | .bool a, .bool b =>
    if h : a = b then isTrue (by rw [h]) else
      isFalse (fun he => h (by injection he))
  | .num a, .num b =>
    if h : a = b then isTrue (by rw [h]) else
      isFalse (fun he => h (by injection he))
  | .str a, .str b =>
    if h : a = b then isTrue (by rw [h]) else
      isFalse (fun he => h (by injection he))
  | .arr a, .arr b =>
    match decEqVLst a b with
    | isTrue h => isTrue (by rw [h])
    | isFalse h => isFalse (fun he => h (by injection he))
  | .dict a, .dict b =>
    match decEqKVs a b with
    | isTrue h => isTrue (by rw [h])
    | isFalse h => isFalse (fun he => h (by injection he))
  | .null, .bool _ => isFalse (fun he => nomatch he)
  | .null, .num _ => isFalse (fun he => nomatch he)
  | .null, .str _ => isFalse (fun he => nomatch he)
  | .null, .arr _ => isFalse (fun he => nomatch he)
  | .null, .dict _ => isFalse (fun he => nomatch he)
  | .bool _, .null => isFalse (fun he => nomatch he)
  | .bool _, .num _ => isFalse (fun he => nomatch he)
  | .bool _, .str _ => isFalse (fun he => nomatch he)
  | .bool _, .arr _ => isFalse (fun he => nomatch he)
  | .bool _, .dict _ => isFalse (fun he => nomatch he)
  | .num _, .null => isFalse (fun he => nomatch he)
  | .num _, .bool _ => isFalse (fun he => nomatch he)
  | .num _, .str _ => isFalse (fun he => nomatch he)
  | .num _, .arr _ => isFalse (fun he => nomatch he)
  | .num _, .dict _ => isFalse (fun he => nomatch he)
  | .str _, .null => isFalse (fun he => nomatch he)
  | .str _, .bool _ => isFalse (fun he => nomatch he)
  | .str _, .num _ => isFalse (fun he => nomatch he)
  | .str _, .arr _ => isFalse (fun he => nomatch he)
  | .str _, .dict _ => isFalse (fun he => nomatch he)
  | .arr _, .null => isFalse (fun he => nomatch he)
  | .arr _, .bool _ => isFalse (fun he => nomatch he)
  | .arr _, .num _ => isFalse (fun he => nomatch he)
  | .arr _, .str _ => isFalse (fun he => nomatch he)
  | .arr _, .dict _ => isFalse (fun he => nomatch he)
  | .dict _, .null => isFalse (fun he => nomatch he)
  | .dict _, .bool _ => isFalse (fun he => nomatch he)
  | .dict _, .num _ => isFalse (fun he => nomatch he)
  | .dict _, .str _ => isFalse (fun he => nomatch he)
  | .dict _, .arr _ => isFalse (fun he => nomatch he)

/-- Decidable equality on lists of values. -/
def decEqVLst : (a b : List Value) → Decidable (a = b)
  | [], [] => isTrue rfl
  | [], _ :: _ => isFalse (fun he => nomatch he)
  | _ :: _, [] => isFalse (fun he => nomatch he)
  | x :: xs, y :: ys =>
    match decEqV x y with
    | isFalse h => isFalse (fun he => h (by injection he))
    | isTrue h1 =>
      match decEqVLst xs ys with
      | isTrue h2 => isTrue (by rw [h1, h2])
      | isFalse h2 => isFalse (fun he => h2 (by injection he))

/-- Decidable equality on association lists of values. -/
def decEqKVs : (a b : List (String × Value)) → Decidable (a = b)
  | [], [] => isTrue rfl
  | [], _ :: _ => isFalse (fun he => nomatch he)
  | _ :: _, [] => isFalse (fun he => nomatch he)
  | (k1, v1) :: xs, (k2, v2) :: ys =>
    if hk : k1 = k2 then
      match decEqV v1 v2 with
      | isFalse h =>
        isFalse (fun he => by
          injection he with he1 he2
          exact h (congrArg Prod.snd he1))
      | isTrue h1 =>
        match decEqKVs xs ys with
        | isTrue h2 => isTrue (by rw [hk, h1, h2])
        | isFalse h2 => isFalse (fun he => h2 (by injection he))
    else
      isFalse (fun he => by
        injection he with he1 he2
        exact hk (congrArg Prod.fst he1))

end

instance : DecidableEq Value := decEqV

/-- Python `v is None`. -/
def Value.isNull : Value → Bool
  | .null => true
  | _ => false

/-- Python `v is False`. -/
def Value.isFalse : Value → Bool
  | .bool false => true
  | _ => false

/-- Python `isinstance(v, dict)`. -/
def Value.isDict : Value → Bool
  | .dict _ => true
  | _ => false

/-- Python `isinstance(v, list)`. -/
def Value.isArr : Value → Bool
  | .arr _ => true
  | _ => false

/-- Whether the value is a string. -/
def Value.isStrV : Value → Bool
  | .str _ => true
  | _ => false

/-- Python `==` on the values the differ ever hands to a comparator.
Both differs route mappings and sequences into recursion before any
comparator runs, so `pyEq` is only ever consulted on scalars; there
Python equality is structural equality except that booleans compare equal
to the numbers 0/1 (`True == 1`).  The container fallback uses plain
structural equality (`beqV`); Python's elementwise coercion inside
containers is unreachable from this code. -/
def pyEq : Value → Value → Bool
  | .null, .null => true
  | .bool a, .bool b => a == b
  | .num a, .num b => a == b
  | .str a, .str b => a == b
  | .bool a, .num n => (if a then (1 : Int) else 0) == n
  | .num n, .bool b => n == (if b then (1 : Int) else 0)
  | l, r => beqV l r

/-- Python dict lookup on an association list (first binding wins;
JSON objects parsed by Python have unique keys). -/
def lookupD (kvs : List (String × Value)) (k : String) : Option Value :=
  (kvs.find? (fun kv => kv.1 == k)).map Prod.snd

/-- Python `d.get(key, default)`. -/
def getDefault (kvs : List (String × Value)) (k : String) (d : Value) : Value :=
  match lookupD kvs k with
  | some v => v
  | none => d

/-- Keys of `set(left.keys()).union(set(right.keys()))`: deduplicated
concatenation.  Python's set iteration order is unspecified; this model
fixes first-occurrence order, which affects only the order of emitted
lines, not which lines are emitted per key. -/
def dedupAux (seen : List String) : List String → List String
  | [] => []
  | k :: rest =>
    if seen.contains k then dedupAux seen rest
    else k :: dedupAux (k :: seen) rest

/-- Deduplicate a key list, keeping first occurrences. -/
def dedupKeys (ks : List String) : List String := dedupAux [] ks

/-- Python `itertools.zip_longest(left, right, fillvalue=None)`:
positional pairing, padding the shorter side with `None`.  The padding
sentinel is the same `None` as a genuine JSON `null` element, exactly as
in the source. -/
def zipLongest : List Value → List Value → List (Value × Value)
  | [], rs => rs.map (fun r => (Value.null, r))
  | l :: ls, [] => (l, Value.null) :: zipLongest ls []
  | l :: ls, r :: rs => (l, r) :: zipLongest ls rs

/-- Python iteration as used by `zip_longest`: lists yield their
elements, dicts yield their keys, strings yield their characters; other
values are not iterable (`TypeError`, modelled as `none`). -/
def pyIter : Value → Option (List Value)
  | .arr xs => some xs
  | .dict kvs => some (kvs.map (fun kv => Value.str kv.1))
  | .str s => some (s.data.map (fun c => Value.str (String.singleton c)))
  | _ => none

/-- One hexadecimal digit? (`int(_, base=16)` accepts 0-9, a-f, A-F). -/
def isHexDigitCh (c : Char) : Bool :=
  c.isDigit || ('a' ≤ c && c ≤ 'f') || ('A' ≤ c && c ≤ 'F')

/-- Numeric value of a hexadecimal digit. -/
def hexVal (c : Char) : Nat :=
  if c.isDigit then c.toNat - 48
  else if 'A' ≤ c && c ≤ 'F' then c.toNat - 55
  else c.toNat - 87

/-- Strip one optional `0x` / `0X` marker. -/
def strip0x : List Char → List Char
  | '0' :: 'x' :: rest => rest
  | '0' :: 'X' :: rest => rest
  | cs => cs

/-- Parse a nonempty run of hexadecimal digits. -/
def parseHexDigits (cs : List Char) : Option Nat :=
  match cs with
  | [] => none
  | _ =>
    if cs.all isHexDigitCh then
      some (cs.foldl (fun a c => a * 16 + hexVal c) 0)
    else none

/-- Python `int(s, base=16)` on a string: surrounding whitespace is
stripped, then an optional sign, an optional `0x`/`0X` marker and a
nonempty digit run; anything else raises `ValueError` (`none` here).
(Underscore digit separators, which never occur in stackwalker output,
are not modelled.) -/
def pyIntBase16 (s : String) : Option Int :=
  let cs := ((s.data.dropWhile Char.isWhitespace).reverse.dropWhile Char.isWhitespace).reverse
  match cs with
  | '+' :: rest => (parseHexDigits (strip0x rest)).map (fun n => (n : Int))
  | '-' :: rest => (parseHexDigits (strip0x rest)).map (fun n => -(n : Int))
  | rest => (parseHexDigits (strip0x rest)).map (fun n => (n : Int))

/-- Lowercase hexadecimal digit character for `n < 16`. -/
def hexDigitCh (n : Nat) : Char :=
  if n < 10 then Char.ofNat (48 + n) else Char.ofNat (87 + n)

/-- Four-digit lowercase hexadecimal rendering of a codepoint (for the
`\uXXXX` escapes `json.dumps` emits). -/
def hex4 (n : Nat) : List Char :=
  [hexDigitCh (n / 4096 % 16), hexDigitCh (n / 256 % 16),
   hexDigitCh (n / 16 % 16), hexDigitCh (n % 16)]

/-- JSON string escaping as done by `json.dumps` with its defaults:
quote and backslash get a backslash, the common control characters use
their short escapes, all other characters outside printable ASCII are
`\uXXXX`-escaped (codepoints above 0xFFFF would use surrogate pairs in
Python; they do not occur in these documents and are not modelled). -/
def jsonEscapeChar (c : Char) : List Char :=
  if c = Char.ofNat 34 then [Char.ofNat 92, Char.ofNat 34]
  else if c = Char.ofNat 92 then [Char.ofNat 92, Char.ofNat 92]
  else if c = Char.ofNat 10 then [Char.ofNat 92, 'n']
  else if c = Char.ofNat 9 then [Char.ofNat 92, 't']
  else if c = Char.ofNat 13 then [Char.ofNat 92, 'r']
  else if c = Char.ofNat 8 then [Char.ofNat 92, 'b']
  else if c = Char.ofNat 12 then [Char.ofNat 92, 'f']
  else if c.toNat < 32 || c.toNat > 126 then Char.ofNat 92 :: 'u' :: hex4 c.toNat
  else [c]

/-- A JSON string literal: quotes around the escaped characters. -/
def jsonQuote (s : String) : String :=
  String.mk (Char.ofNat 34 :: (s.data.map jsonEscapeChar).flatten ++ [Char.ofNat 34])

/-- Fuelled `json.dumps` on a value (fuel is structural for Lean; the
wrapper `fix_value` always supplies enough). -/
def fix_valueF : Nat → Value → String
  | 0, _ => ""
  | Nat.succ f, v =>
    match v with
    | .null => "null"
    | .bool true => "true"
    | .bool false => "false"
    | .num n => toString n
    | .str s => jsonQuote s
    | .arr xs => "[" ++ String.intercalate ", " (xs.map (fix_valueF f)) ++ "]"
    | .dict kvs =>
      "\x7b" ++
        String.intercalate ", "
          (kvs.map (fun kv => jsonQuote kv.1 ++ ": " ++ fix_valueF f kv.2)) ++
      "\x7d"

/-- `fix_value(value)` from the source: `json.dumps(value)`. -/
def fix_value (v : Value) : String := fix_valueF (Nat.succ (sizeV v)) v

/-- Python `repr` escaping of one string character, given the quote
character in use: backslash and the quote get a backslash, newline /
carriage return / tab use short escapes, other control characters (and
DEL) use `\xXX`; printable characters stand for themselves. -/
def pyReprChar (quote : Char) (c : Char) : List Char :=
  if c = Char.ofNat 92 then [Char.ofNat 92, Char.ofNat 92]
  else if c = quote then [Char.ofNat 92, quote]
  else if c = Char.ofNat 10 then [Char.ofNat 92, 'n']
  else if c = Char.ofNat 13 then [Char.ofNat 92, 'r']
  else if c = Char.ofNat 9 then [Char.ofNat 92, 't']
  else if c.toNat < 32 || c.toNat = 127 then
    Char.ofNat 92 :: 'x' :: [hexDigitCh (c.toNat / 16 % 16), hexDigitCh (c.toNat % 16)]
  else [c]

/-- Python `repr` of a string: single-quoted, except double-quoted when
the string contains a single quote but no double quote. -/
def pyReprStr (s : String) : String :=
  let sq := Char.ofNat 39
  let dq := Char.ofNat 34
  let quote := if s.data.contains sq && !s.data.contains dq then dq else sq
  String.mk (quote :: (s.data.map (pyReprChar quote)).flatten ++ [quote])

/-- Fuelled Python `repr` of a value (`None`/`True`/`False`, decimal
integers, quoted strings, `[..]` lists, and dict displays). -/
def pyReprF : Nat → Value → String
  | 0, _ => ""
  | Nat.succ f, v =>
    match v with
    | .null => "None"
    | .bool true => "True"
    | .bool false => "False"
    | .num n => toString n
    | .str s => pyReprStr s
    | .arr xs => "[" ++ String.intercalate ", " (xs.map (pyReprF f)) ++ "]"
    | .dict kvs =>
      "\x7b" ++
        String.intercalate ", "
          (kvs.map (fun kv => pyReprStr kv.1 ++ ": " ++ pyReprF f kv.2)) ++
      "\x7d"

/-- Python `str()` of a value, as used by the f-strings in `diff_lists`:
strings render as themselves, everything else as its `repr`. -/
def pyStr (v : Value) : String :=
  match v with
  | .str s => s
  | _ => pyReprF (Nat.succ (sizeV v)) v

/-- Digit-run collapsing behind `re.sub(r"\d+", "N", key)`: the flag
records whether we are inside a run of digits (Python's `\d` also
matches non-ASCII decimal digits, which never occur in these key paths
and are not modelled). -/
def goNorm : Bool → List Char → List Char
  | _, [] => []
  | inRun, c :: rest =>
    if c.isDigit then (if inRun then goNorm true rest else 'N' :: goNorm true rest)
    else c :: goNorm false rest

/-- `re.sub(r"\d+", "N", s)`: every maximal run of decimal digits becomes
a single `N`. -/
def normalizeDigits (s : String) : String := String.mk (goNorm false s.data)

/-- The `if namespace: key = f"{namespace}.{key}"` prefixing shared by all
three classifiers (an empty namespace is falsy in Python). -/
def joinNS (ns key : String) : String := if ns = "" then key else ns ++ "." ++ key

/-- `IGNORE_KEYS` from the source: normalized paths whose divergences are
never reported. -/
def IGNORE_KEYS : List String :=
  ["stackwalk_version",
   "tiny_block_size",
   "largest_free_vm_block",
   "write_combine_size",
   "crashing_thread.total_frames",
   "modules.N.symbol_disk_cache_hit",
   "modules.N.symbol_fetch_time",
   "modules.N.missing_symbols",
   "threads.N.frames.N.missing_symbols",
   "crashing_thread.frames.N.missing_symbols"]

/-- `is_ignore_key(namespace, key)`. -/
def is_ignore_key (ns key : String) : Bool :=
  IGNORE_KEYS.contains (normalizeDigits (joinNS ns key))

/-- `NULL_OK` from the source: normalized paths where a left-side `null`
for a key the right side omits is acceptable. -/
def NULL_OK : List String :=
  ["mac_crash_info",
   "lsb_release",
   "crash_info.assertion",
   "system_info.cpu_microcode_version",
   "crashing_thread.last_error_value",
   "crashing_thread.thread_name",
   "crashing_thread.frames.N.line",
   "crashing_thread.frames.N.file",
   "crashing_thread.frames.N.module",
   "crashing_thread.frames.N.module_offset",
   "crashing_thread.frames.N.function_offset",
   "crashing_thread.frames.N.function",
   "threads.N.last_error_value",
   "threads.N.thread_name",
   "threads.N.frames.N.file",
   "threads.N.frames.N.function",
   "threads.N.frames.N.function_offset",
   "threads.N.frames.N.line",
   "threads.N.frames.N.module",
   "threads.N.frames.N.module_offset",
   "modules.N.cert_subject",
   "modules.N.symbol_url",
   "unloaded_modules.N.cert_subject"]

/-- `is_null_ok(namespace, key)`. -/
def is_null_ok (ns key : String) : Bool :=
  NULL_OK.contains (normalizeDigits (joinNS ns key))

/-- `FALSE_OK` from the source: normalized paths where a left-side
`False` for a key the right side omits is acceptable. -/
def FALSE_OK : List String :=
  ["modules.N.loaded_symbols",
   "modules.N.corrupt_symbols"]

/-- `is_false_ok(namespace, key)`. -/
def is_false_ok (ns key : String) : Bool :=
  FALSE_OK.contains (normalizeDigits (joinNS ns key))

/-- `compare_hex(key, left, right)`.  `None` on either side short-circuits
to Python `==`.  Then `int(left, base=16)` is attempted: a non-string
raises `TypeError`, which the source catches and turns into `False`; a
string that does not parse raises `ValueError`, which the source does
NOT catch (its `except` clause names only `TypeError`), so the exception
escapes — modelled as `Except.error`.  The same applies to the right
operand.  Otherwise the two parsed integers are compared. -/
def compare_hex (key : String) (left right : Value) : Except String Bool :=
  if left.isNull || right.isNull then Except.ok (pyEq left right)
  else
    match left with
    | .str s =>
      (match pyIntBase16 s with
       | none => Except.error "ValueError"
       | some li =>
         (match right with
          | .str t =>
            (match pyIntBase16 t with
             | none => Except.error "ValueError"
             | some ri => Except.ok (li == ri))
          | _ => Except.ok false))
    | _ => Except.ok false

/-- `compare_misc(key, left, right)`: plain Python equality (the key is
accepted and ignored, as in the source). -/
def compare_misc (key : String) (left right : Value) : Bool := pyEq left right

/-- The keys of the `KEY_COMPARE` dict, all of which map to
`compare_hex`; every other key falls back to `compare_misc`. -/
def KEY_COMPARE : List String := ["module_offset", "offset", "function_offset"]

/-- `KEY_COMPARE.get(key, compare_misc)` applied to the two values, with
`compare_misc` lifted into the same error monad (it cannot raise). -/
def getComparator (key : String) (left right : Value) : Except String Bool :=
  if KEY_COMPARE.contains key then compare_hex key left right
  else Except.ok (compare_misc key left right)

/-- Pad a string with spaces on the right up to width `w` (Python's
`f"{s:w}"` for strings: left-aligned, minimum width, never truncating). -/
def padTo (s : String) (w : Nat) : String :=
  s ++ String.mk (List.replicate (w - s.length) ' ')

/-- The value-column width in `print_line`. -/
def TRIM : Nat := 80

/-- `print_line(key, leftvalue, indicator, rightvalue)`: the line printed
for one divergence.  The two value renderings are sliced to `TRIM`
characters; the key is format-padded to width 50 and the left value to
width `TRIM` — minimum widths, so neither field is ever truncated by the
padding itself. -/
def print_line (key leftvalue indicator rightvalue : String) : String :=
  padTo key 50 ++ "  " ++ padTo (leftvalue.take TRIM) TRIM ++ "  " ++
    indicator ++ "  " ++ rightvalue.take TRIM

/-- Python `namespace.split(".")[-1]`: the segment after the last dot. -/
def lastSegAux : List Char → List Char → List Char
  | [], cur => cur.reverse
  | c :: rest, cur => if c = '.' then lastSegAux rest [] else lastSegAux rest (c :: cur)

/-- The last dot-separated segment of a path. -/
def lastSegment (s : String) : String := String.mk (lastSegAux s.data [])

/-- The result of one differ invocation: the divergence lines printed, and
the uncaught Python exception if one was raised (`none` = returned
normally).  Lines printed before the exception are kept, matching
Python's incremental printing. -/
abbrev DOut := List String × Option String

/-- Sequencing of two differ steps: an exception in the first aborts the
second. -/
def dcomb (a b : DOut) : DOut :=
  match a.2 with
  | some _ => a
  | none => (a.1 ++ b.1, b.2)

/-- The type of the recursion callbacks handed to the loop bodies: a
fully recursive `diff_dicts`/`diff_lists` call on a namespace and two
values (the source always passes `recurse=True` on recursive calls). -/
abbrev RecFn := String → Value → Value → DOut

/-- The body of `diff_dicts`'s loop for a single key of the key union
(source lines 182-221): skip ignorable keys; a key only on the left is
suppressed when its value is `None` on a null-ok path or `False` on a
false-ok path, else printed as a `>` line; a key only on the right is
always printed as a `<` line; a key on both sides recurses (when
`recurse`) into dicts or lists, and otherwise runs the comparator chosen
by bare key name, printing a `|` line on inequality. -/
def diffKeyGo (recD recL : RecFn) (ns : String) (lkvs rkvs : List (String × Value))
    (recurse : Bool) (key : String) : DOut :=
  if is_ignore_key ns key then ([], none)
  else
    match lookupD lkvs key, lookupD rkvs key with
    | some lv, none =>
      if lv.isNull && is_null_ok ns key then ([], none)
      else if lv.isFalse && is_false_ok ns key then ([], none)
      else ([print_line (joinNS ns key) (fix_value lv) ">" ""], none)
    | none, some rv => ([print_line (joinNS ns key) "" "<" (fix_value rv)], none)
    | none, none => ([], none)
    | some lv, some rv =>
      if lv.isDict || rv.isDict then
        (if recurse then recD (joinNS ns key) lv rv else ([], none))
      else if lv.isArr || rv.isArr then
        (if recurse then recL (joinNS ns key) lv rv else ([], none))
      else
        match getComparator key lv rv with
        | Except.error e => ([], some e)
        | Except.ok true => ([], none)
        | Except.ok false =>
          ([print_line (joinNS ns key) (fix_value lv) "|" (fix_value rv)], none)

/-- `diff_dicts`'s loop over the key union, with early exit on an
exception. -/
def diffKeysGo (recD recL : RecFn) (ns : String) (lkvs rkvs : List (String × Value))
    (recurse : Bool) : List String → DOut
  | [] => ([], none)
  | k :: rest =>
    match diffKeyGo recD recL ns lkvs rkvs recurse k with
    | (ls, some e) => (ls, some e)
    | (ls, none) =>
      (fun t : DOut => (ls ++ t.1, t.2)) (diffKeysGo recD recL ns lkvs rkvs recurse rest)

/-- One level of `diff_dicts(namespace, left, right, recurse)`: both
arguments must be mappings (`left.keys()` / `right.keys()` raise
`AttributeError` otherwise), then the loop runs over the key union. -/
def diffDictsGo (recD recL : RecFn) (ns : String) (left right : Value) (recurse : Bool) : DOut :=
  match left, right with
  | .dict lkvs, .dict rkvs =>
    diffKeysGo recD recL ns lkvs rkvs recurse
      (dedupKeys (lkvs.map Prod.fst ++ rkvs.map Prod.fst))
  | _, _ => ([], some "AttributeError")

/-- The body of `diff_lists`'s loop for one aligned position (source
lines 152-177): a non-null value aligned with null is printed as a
one-sided `>`/`<` line using `str()` rendering; otherwise dicts/lists
recurse (when `recurse`); otherwise the two leaves are compared with
`compare_misc` — the source passes `namespace.split(".")[-1]` as the key
but calls `compare_misc` directly, so no `KEY_COMPARE` lookup happens
here — and a `|` line is printed on inequality. -/
def diffElemGo (recD recL : RecFn) (ns : String) (recurse : Bool) (i : Nat)
    (lv rv : Value) : DOut :=
  if !lv.isNull && rv.isNull then
    ([print_line (ns ++ "." ++ toString i) (pyStr lv) ">" ""], none)
  else if lv.isNull && !rv.isNull then
    ([print_line (ns ++ "." ++ toString i) "" "<" (pyStr rv)], none)
  else
    if lv.isDict || rv.isDict then
      (if recurse then recD (ns ++ "." ++ toString i) lv rv else ([], none))
    else if lv.isArr || rv.isArr then
      (if recurse then recL (ns ++ "." ++ toString i) lv rv else ([], none))
    else
      if compare_misc (lastSegment ns) lv rv then ([], none)
      else
        ([print_line (ns ++ "." ++ toString i) (fix_value lv) "|" (fix_value rv)], none)

/-- `diff_lists`'s loop over the `zip_longest` pairs with their
`enumerate` indices, with early exit on an exception. -/
def diffElemsGo (recD recL : RecFn) (ns : String) (recurse : Bool) :
    Nat → List (Value × Value) → DOut
  | _, [] => ([], none)
  | i, p :: rest =>
    match diffElemGo recD recL ns recurse i p.1 p.2 with
    | (ls, some e) => (ls, some e)
    | (ls, none) =>
      (fun t : DOut => (ls ++ t.1, t.2)) (diffElemsGo recD recL ns recurse (i + 1) rest)

/-- One level of `diff_lists(namespace, left, right, recurse)`: both
arguments must be iterable (else `zip_longest` raises `TypeError`), then
the loop runs over the padded positional pairs. -/
def diffListsGo (recD recL : RecFn) (ns : String) (left right : Value) (recurse : Bool) : DOut :=
  match pyIter left, pyIter right with
  | some ll, some rl => diffElemsGo recD recL ns recurse 0 (zipLongest ll rl)
  | _, _ => ([], some "TypeError")

/-- The fuelled mutual recursion of `diff_dicts` (mode `true`) and
`diff_lists` (mode `false`).  Each recursive call consumes one unit of
fuel; the public wrappers supply `sizeV left + sizeV right + 1`, which
the development's lemmas show can never run out because the recursion
only ever descends to values of strictly smaller combined size. -/
def diffFuel : Nat → Bool → String → Value → Value → Bool → DOut
  | 0, _, _, _, _, _ => ([], some "fuel-exhausted")
  | Nat.succ f, mode, ns, l, r, recurse =>
    if mode then
      diffDictsGo (fun ns2 a b => diffFuel f true ns2 a b true)
        (fun ns2 a b => diffFuel f false ns2 a b true) ns l r recurse
    else
      diffListsGo (fun ns2 a b => diffFuel f true ns2 a b true)
        (fun ns2 a b => diffFuel f false ns2 a b true) ns l r recurse

/-- `diff_dicts(namespace, left, right, recurse=recurse)`. -/
def diff_dicts (ns : String) (left right : Value) (recurse : Bool) : DOut :=
  diffFuel (Nat.succ (sizeV left + sizeV right)) true ns left right recurse

/-- `diff_lists(namespace, left, right, recurse=recurse)`. -/
def diff_lists (ns : String) (left right : Value) (recurse : Bool) : DOut :=
  diffFuel (Nat.succ (sizeV left + sizeV right)) false ns left right recurse

/-- Lexicographic `≤` on character lists by codepoint (Python string
comparison). -/
def leChars : List Char → List Char → Bool
  | [], _ => true
  | _ :: _, [] => false
  | a :: as_, b :: bs => a.toNat < b.toNat || (a.toNat == b.toNat && leChars as_ bs)

/-- Python `≤` on strings. -/
def leStr (a b : String) : Bool := leChars a.data b.data

/-- Stable insertion into a sorted list (kept before strictly greater
elements, after equal ones). -/
def insertSorted (le : Option String × Value → Option String × Value → Bool)
    (x : Option String × Value) :
    List (Option String × Value) → List (Option String × Value)
  | [] => [x]
  | y :: ys => if le x y then x :: y :: ys else y :: insertSorted le x ys

/-- Stable insertion sort (Python's `list.sort` is stable; for the inputs
this development evaluates, stability and ordering agree with Python's
timsort). -/
def isort (le : Option String × Value → Option String × Value → Bool) :
    List (Option String × Value) → List (Option String × Value)
  | [] => []
  | x :: xs => insertSorted le x (isort le xs)

/-- `module_key(module)` from `main`:
`module.get("filename", "") + module.get("code_id", "")`.  A non-dict
element raises `AttributeError`, a non-string filename or code id raises
`TypeError` on `+`; both are modelled as `none`. -/
def module_key (m : Value) : Option String :=
  match m with
  | .dict kvs =>
    (match getDefault kvs "filename" (.str ""), getDefault kvs "code_id" (.str "") with
     | .str a, .str b => some (a ++ b)
     | _, _ => none)
  | _ => none

/-- `list.sort(key=module_key)`: Python first computes every key (raising
if any element has no valid key), then sorts stably by key. -/
def sortModules (xs : List Value) : Option (List Value) :=
  let keyed := xs.map (fun m => (module_key m, m))
  if keyed.all (fun p => p.1.isSome) then
    some ((isort (fun p q => leStr (p.1.getD "") (q.1.getD "")) keyed).map Prod.snd)
  else none

/-- The module-list part of `main`: fetch `modules` with default `[]`,
sort both sides by `module_key`, diff with full recursion; then the same
for `unloaded_modules`.  A non-list value has no `.sort` attribute
(`AttributeError`); a bad element aborts inside the sort. -/
def moduleListDiff (name : String) (lk rk : List (String × Value)) : DOut :=
  match getDefault lk name (.arr []), getDefault rk name (.arr []) with
  | .arr lm, .arr rm =>
    (match sortModules lm, sortModules rm with
     | some ls, some rs => diff_lists name (.arr ls) (.arr rs) true
     | _, _ => ([], some "TypeError"))
  | _, _ => ([], some "AttributeError")

/-- The fixed diff sequence of `main` after the two documents are loaded
(source lines 241-283): a shallow diff of the roots; shallow diffs of
`crash_info`, `system_info` and `sensitive`; a fully recursive diff of
`crashing_thread`; a fully recursive `diff_lists` over `threads` (note
the source's `{}` defaults); and fully recursive diffs of the two module
lists after sorting both sides by `module_key`.  If either root is not a
mapping the first `diff_dicts` raises and nothing further runs. -/
def driver_diff (left right : Value) : DOut :=
  match left, right with
  | .dict lk, .dict rk =>
    dcomb (diff_dicts "" left right false)
    (dcomb (diff_dicts "crash_info" (getDefault lk "crash_info" (.dict []))
        (getDefault rk "crash_info" (.dict [])) false)
    (dcomb (diff_dicts "system_info" (getDefault lk "system_info" (.dict []))
        (getDefault rk "system_info" (.dict [])) false)
    (dcomb (diff_dicts "sensitive" (getDefault lk "sensitive" (.dict []))
        (getDefault rk "sensitive" (.dict [])) false)
    (dcomb (diff_dicts "crashing_thread" (getDefault lk "crashing_thread" (.dict []))
        (getDefault rk "crashing_thread" (.dict [])) true)
    (dcomb (diff_lists "threads" (getDefault lk "threads" (.dict []))
        (getDefault rk "threads" (.dict [])) true)
    (dcomb (moduleListDiff "modules" lk rk)
           (moduleListDiff "unloaded_modules" lk rk)))))))
  | _, _ => diff_dicts "" left right false

/-- A value at a hex-compared key survives a self-comparison cleanly:
`compare_hex k v v` returns `ok true` exactly when `v` is null or a
base-16-parseable string (a non-string yields `ok false` — an emitted
line — and an unparseable string raises `ValueError`). -/
def hexSelfOk (v : Value) : Bool :=
  v.isNull ||
    (match v with
     | .str s => (pyIntBase16 s).isSome
     | _ => false)

/-- A leaf value compared against itself under the comparator chosen for
`key` produces no divergence and no exception. -/
def leafSelfOk (key : String) (v : Value) : Bool :=
  if KEY_COMPARE.contains key then hexSelfOk v else true

/-- Fuelled recursive "self-diff is clean" condition for a value at
namespace `ns` (its own dotted path).  `key` is the dict key under which
the value sits (`none` for list elements, whose leaf comparisons in
`diff_lists` never use `KEY_COMPARE` and so are always clean).  Children
under an ignored key are exempt, mirroring the differ's skip-before-
recursion. -/
def selfCleanVF : Nat → String → Option String → Value → Bool
  | 0, _, _, _ => false
  | Nat.succ f, ns, key, v =>
    match v with
    | .dict kvs =>
      kvs.all (fun kv =>
        is_ignore_key ns kv.1 || selfCleanVF f (joinNS ns kv.1) (some kv.1) kv.2)
    | .arr xs =>
      xs.enum.all (fun p => selfCleanVF f (ns ++ "." ++ toString p.1) none p.2)
    | v2 =>
      match key with
      | some k => leafSelfOk k v2
      | none => true

/-- Wrapper for `selfCleanVF` with sufficient fuel. -/
def selfCleanV (ns : String) (key : Option String) (v : Value) : Bool :=
  selfCleanVF (Nat.succ (sizeV v)) ns key v

/-- Shallow (non-recursive) self-diff cleanliness of a mapping: every
non-ignored leaf entry survives its comparator; dict/list values are
skipped by a `recurse=False` call and need no condition. -/
def shallowCleanDict (ns : String) (kvs : List (String × Value)) : Bool :=
  kvs.all (fun kv =>
    is_ignore_key ns kv.1 || kv.2.isDict || kv.2.isArr || leafSelfOk kv.1 kv.2)

/-- The named sub-document is a mapping (or absent) and shallowly clean. -/
def subShallowClean (kvs : List (String × Value)) (name : String) : Bool :=
  match getDefault kvs name (.dict []) with
  | .dict k2 => shallowCleanDict name k2
  | _ => false

/-- The named sub-document is a mapping (or absent) and recursively
clean. -/
def subDeepDictClean (kvs : List (String × Value)) (name : String) : Bool :=
  match getDefault kvs name (.dict []) with
  | .dict k2 => selfCleanV name none (.dict k2)
  | _ => false

/-- The named sub-document can be handed to a recursive `diff_lists`
against itself cleanly: a list that is recursively clean, or a mapping or
string (whose iteration yields equal strings on both sides), or absent. -/
def subDeepListClean (kvs : List (String × Value)) (name : String) : Bool :=
  match getDefault kvs name (.dict []) with
  | .arr xs => selfCleanV name none (.arr xs)
  | .dict _ => true
  | .str _ => true
  | _ => false

/-- The named module list is a list (or absent) whose elements all have
valid sort keys, and the sorted list is recursively clean. -/
def modulesCleanP (kvs : List (String × Value)) (name : String) : Bool :=
  match getDefault kvs name (.arr []) with
  | .arr xs =>
    (match sortModules xs with
     | some sorted => selfCleanV name none (.arr sorted)
     | none => false)
  | _ => false

/-- A document that the driver's self-diff provably leaves silent: a
mapping whose root is shallowly clean, whose `crash_info`/`system_info`/
`sensitive` are mappings (or absent) and shallowly clean, whose
`crashing_thread` is a mapping (or absent) and recursively clean, whose
`threads` is iterable and recursively clean, and whose module lists sort
cleanly into recursively clean lists. -/
def cleanDoc (d : Value) : Bool :=
  match d with
  | .dict kvs =>
    shallowCleanDict "" kvs &&
    subShallowClean kvs "crash_info" &&
    subShallowClean kvs "system_info" &&
    subShallowClean kvs "sensitive" &&
    subDeepDictClean kvs "crashing_thread" &&
    subDeepListClean kvs "threads" &&
    modulesCleanP kvs "modules" &&
    modulesCleanP kvs "unloaded_modules"
  | _ => false

/-- Safety of the two operands once `compare_hex` reaches its parsing
phase: a non-string left is safe (`TypeError` is caught), a string left
must parse, and then a string right must parse too (a non-string right is
again a caught `TypeError`). -/
def hexOperandOk : Value → Value → Bool
  | .str s, .str t => (pyIntBase16 s).isSome && (pyIntBase16 t).isSome
  | .str s, _ => (pyIntBase16 s).isSome
  | _, _ => true

/-- The pair of values at a shared comparable key cannot make
`compare_hex` raise: under a `KEY_COMPARE` key, either side null is safe,
and otherwise the operands must satisfy `hexOperandOk`. -/
def hexPairOk (k : String) (lv rv : Value) : Bool :=
  if KEY_COMPARE.contains k then lv.isNull || rv.isNull || hexOperandOk lv rv
  else true

/-- Fuelled shape agreement: at every shared key and at every aligned
list position where neither side is null, a mapping faces a mapping and
a sequence faces a sequence, recursively.  One-sided keys and positions
need no condition (they are printed, not recursed into). -/
def shapeAgreeF : Nat → Value → Value → Bool
  | 0, _, _ => false
  | Nat.succ f, l, r =>
    match l, r with
    | .dict a, .dict b =>
      (dedupKeys (a.map Prod.fst ++ b.map Prod.fst)).all (fun k =>
        match lookupD a k, lookupD b k with
        | some lv, some rv => shapeAgreeF f lv rv
        | _, _ => true)
    | .dict _, _ => false
    | _, .dict _ => false
    | .arr a, .arr b =>
      (zipLongest a b).all (fun p => p.1.isNull || p.2.isNull || shapeAgreeF f p.1 p.2)
    | .arr _, _ => false
    | _, .arr _ => false
    | _, _ => true

/-- Wrapper for `shapeAgreeF` with sufficient fuel. -/
def shapeAgree (l r : Value) : Bool := shapeAgreeF (Nat.succ (sizeV l + sizeV r)) l r

/-- Fuelled hex-parse safety: at every shared comparable leaf pair under
a `KEY_COMPARE` key, `hexPairOk` holds; containers are traversed the way
the differ does (list-element leaves are compared by `compare_misc` only
and need no condition). -/
def hexAgreeF : Nat → Value → Value → Bool
  | 0, _, _ => false
  | Nat.succ f, l, r =>
    match l, r with
    | .dict a, .dict b =>
      (dedupKeys (a.map Prod.fst ++ b.map Prod.fst)).all (fun k =>
        match lookupD a k, lookupD b k with
        | some lv, some rv =>
          if lv.isDict || rv.isDict || lv.isArr || rv.isArr then hexAgreeF f lv rv
          else hexPairOk k lv rv
        | _, _ => true)
    | .arr a, .arr b =>
      (zipLongest a b).all (fun p =>
        if p.1.isNull || p.2.isNull then true
        else if p.1.isDict || p.2.isDict || p.1.isArr || p.2.isArr then hexAgreeF f p.1 p.2
        else true)
    | _, _ => true

/-- Wrapper for `hexAgreeF` with sufficient fuel. -/
def hexAgree (l r : Value) : Bool := hexAgreeF (Nat.succ (sizeV l + sizeV r)) l r

theorem sizeV_pos (v : Value) : 1 ≤ sizeV v := by
  cases v <;> simp [sizeV]

theorem sizeVKV_mem (kvs : List (String × Value)) (kv : String × Value)
    (h : kv ∈ kvs) : sizeV kv.2 < sizeVKV kvs := by
  induction kvs with
  | nil => cases h
  | cons hd tl ih =>
    rcases List.mem_cons.mp h with h1 | h2
    · subst h1; simp [sizeVKV]; omega
    · have := ih h2; simp [sizeVKV]; omega

theorem sizeVL_mem (xs : List Value) (v : Value) (h : v ∈ xs) : sizeV v < sizeVL xs := by
  induction xs with
  | nil => cases h
  | cons hd tl ih =>
    rcases List.mem_cons.mp h with h1 | h2
    · subst h1; simp [sizeVL]; omega
    · have := ih h2; simp [sizeVL]; omega

theorem lookupD_mem_pair (kvs : List (String × Value)) (k : String) (v : Value)
    (h : lookupD kvs k = some v) : (k, v) ∈ kvs := by
  unfold lookupD at h
  rcases Option.map_eq_some'.mp h with ⟨p, hp, hv⟩
  have hm := List.mem_of_find?_eq_some hp
  have hk := List.find?_some hp
  have hk2 : p.1 = k := by simpa using hk
  rcases p with ⟨a, b⟩
  simp at hk2 hv
  subst hk2; subst hv; exact hm

theorem lookupD_sizeV (kvs : List (String × Value)) (k : String) (v : Value)
    (h : lookupD kvs k = some v) : sizeV v < sizeVKV kvs := by
  have := sizeVKV_mem kvs (k, v) (lookupD_mem_pair kvs k v h)
  simpa using this

theorem dedupAux_sub (ks : List String) : ∀ seen k, k ∈ dedupAux seen ks → k ∈ ks := by
  induction ks with
  | nil => intro seen k h; simp [dedupAux] at h
  | cons hd tl ih =>
    intro seen k h
    by_cases hc : hd ∈ seen
    · simp [dedupAux, hc] at h
      exact List.mem_cons_of_mem hd (ih seen k h)
    · simp [dedupAux, hc] at h
      rcases h with h1 | h2
      · subst h1; exact List.mem_cons_self k tl
      · exact List.mem_cons_of_mem hd (ih (hd :: seen) k h2)

theorem dedupKeys_sub (ks : List String) (k : String) (h : k ∈ dedupKeys ks) : k ∈ ks :=
  dedupAux_sub ks [] k h

theorem mem_fst_lookupD (kvs : List (String × Value)) (k : String)
    (h : k ∈ kvs.map Prod.fst) : ∃ v, lookupD kvs k = some v := by
  induction kvs with
  | nil => simp at h
  | cons hd tl ih =>
    cases he : hd.1 == k with
    | true => exact ⟨hd.2, by simp [lookupD, List.find?, he]⟩
    | false =>
      have hne : hd.1 ≠ k := by
        intro hx
        rw [hx] at he
        simp at he
      simp only [List.map_cons, List.mem_cons] at h
      rcases h with h1 | h1
      · exact absurd h1.symm hne
      · rcases ih h1 with ⟨v, hv⟩
        refine ⟨v, ?_⟩
        simp only [lookupD] at hv ⊢
        rw [List.find?_cons, he]
        exact hv

theorem zipLongest_self (xs : List Value) : zipLongest xs xs = xs.map (fun v => (v, v)) := by
  induction xs with
  | nil => rfl
  | cons hd tl ih => simp [zipLongest, ih]

theorem zipLongest_mem (a : List Value) :
    ∀ b p, p ∈ zipLongest a b → (p.1 ∈ a ∨ p.1 = Value.null) ∧ (p.2 ∈ b ∨ p.2 = Value.null) := by
  induction a with
  | nil =>
    intro b p h
    simp only [zipLongest] at h
    rcases List.mem_map.mp h with ⟨r, hr, he⟩
    subst he; exact ⟨Or.inr rfl, Or.inl hr⟩
  | cons hd tl ih =>
    intro b p h
    cases b with
    | nil =>
      simp only [zipLongest] at h
      rcases List.mem_cons.mp h with h1 | h2
      · subst h1; exact ⟨Or.inl (by simp), Or.inr rfl⟩
      · rcases ih [] p h2 with ⟨h3, h4⟩
        refine ⟨?_, ?_⟩
        · rcases h3 with h5 | h5
          · exact Or.inl (List.mem_cons_of_mem hd h5)
          · exact Or.inr h5
        · rcases h4 with h5 | h5
          · simp at h5
          · exact Or.inr h5
    | cons hd2 tl2 =>
      simp only [zipLongest] at h
      rcases List.mem_cons.mp h with h1 | h2
      · subst h1; exact ⟨Or.inl (by simp), Or.inl (by simp)⟩
      · rcases ih tl2 p h2 with ⟨h3, h4⟩
        refine ⟨?_, ?_⟩
        · rcases h3 with h5 | h5
          · exact Or.inl (List.mem_cons_of_mem hd h5)
          · exact Or.inr h5
        · rcases h4 with h5 | h5
          · exact Or.inl (List.mem_cons_of_mem hd2 h5)
          · exact Or.inr h5

theorem zipLongest_elt (a : List Value) :
    ∀ (b : List Value) (n : Nat) (p : Value × Value), (zipLongest a b)[n]? = some p →
      p.1 = a[n]?.getD Value.null ∧ p.2 = b[n]?.getD Value.null := by
  induction a with
  | nil =>
    intro b n p h
    simp only [zipLongest] at h
    rw [List.getElem?_map] at h
    rcases Option.map_eq_some'.mp h with ⟨r, hr, he⟩
    subst he; simp [hr]
  | cons hd tl ih =>
    intro b n p h
    cases b with
    | nil =>
      cases n with
      | zero =>
        simp only [zipLongest, List.getElem?_cons_zero, Option.some.injEq] at h
        subst h; simp
      | succ n2 =>
        simp only [zipLongest, List.getElem?_cons_succ] at h
        have := ih [] n2 p h
        simpa using this
    | cons hd2 tl2 =>
      cases n with
      | zero =>
        simp only [zipLongest, List.getElem?_cons_zero, Option.some.injEq] at h
        subst h; simp
      | succ n2 =>
        simp only [zipLongest, List.getElem?_cons_succ] at h
        have := ih tl2 n2 p h
        simpa using this

theorem enumFrom_mem_of_elt {α : Type} (xs : List α) :
    ∀ (k n : Nat) (v : α), xs[n]? = some v → (k + n, v) ∈ xs.enumFrom k := by
  induction xs with
  | nil => intro k n v h; simp at h
  | cons hd tl ih =>
    intro k n v h
    cases n with
    | zero =>
      simp only [List.getElem?_cons_zero, Option.some.injEq] at h
      subst h; simp [List.enumFrom]
    | succ n2 =>
      simp only [List.getElem?_cons_succ] at h
      have := ih (k + 1) n2 v h
      have he : k + (n2 + 1) = k + 1 + n2 := by omega
      rw [he]
      exact List.mem_cons_of_mem _ this

theorem enum_mem_of_elt {α : Type} (xs : List α) (n : Nat) (v : α)
    (h : xs[n]? = some v) : (n, v) ∈ xs.enum := by
  have := enumFrom_mem_of_elt xs 0 n v h
  simpa [List.enum] using this

mutual

theorem beqV_refl : ∀ v, beqV v v = true
  | .null => rfl
  | .bool a => by simp [beqV]
  | .num a => by simp [beqV]
  | .str a => by simp [beqV]
  | .arr xs => by simpa [beqV] using beqVL_refl xs
  | .dict kvs => by simpa [beqV] using beqVKV_refl kvs

theorem beqVL_refl : ∀ xs, beqVL xs xs = true
  | [] => rfl
  | v :: vs => by simp [beqVL, beqV_refl v, beqVL_refl vs]

theorem beqVKV_refl : ∀ kvs, beqVKV kvs kvs = true
  | [] => rfl
  | kv :: rest => by simp [beqVKV, beqV_refl kv.2, beqVKV_refl rest]

end

theorem pyEq_refl (v : Value) : pyEq v v = true := by
  cases v with
  | null => rfl
  | bool a => simp [pyEq]
  | num a => simp [pyEq]
  | str a => simp [pyEq]
  | arr xs => simpa [pyEq] using beqVL_refl xs
  | dict kvs => simpa [pyEq] using beqVKV_refl kvs

theorem listAllCongr {α : Type} (l : List α) (f g : α → Bool)
    (h : ∀ a ∈ l, f a = g a) : l.all f = l.all g := by
  induction l with
  | nil => rfl
  | cons hd tl ih =>
    simp only [List.all_cons]
    rw [h hd (by simp), ih (fun a ha => h a (List.mem_cons_of_mem hd ha))]

theorem goNorm_nondigit_false (pre : List Char) :
    ∀ rest : List Char, (∀ c ∈ pre, c.isDigit = false) →
      goNorm false (pre ++ rest) = pre ++ goNorm false rest := by
  induction pre with
  | nil => intro rest _; rfl
  | cons hd tl ih =>
    intro rest hnd
    have hhd : hd.isDigit = false := hnd hd (by simp)
    have ht := ih rest (fun c hc => hnd c (List.mem_cons_of_mem hd hc))
    simp [goNorm, hhd, ht]

theorem goNorm_nondigit_front (pre : List Char) (rest : List Char) (flag : Bool)
    (hne : pre ≠ []) (hnd : ∀ c ∈ pre, c.isDigit = false) :
    goNorm flag (pre ++ rest) = pre ++ goNorm false rest := by
  cases pre with
  | nil => exact absurd rfl hne
  | cons hd tl =>
    have hhd : hd.isDigit = false := hnd hd (by simp)
    have ht := goNorm_nondigit_false tl rest (fun c hc => hnd c (List.mem_cons_of_mem hd hc))
    simp [goNorm, hhd, ht]

theorem goNorm_digits_true (ds : List Char) :
    ∀ rest : List Char, (∀ c ∈ ds, c.isDigit = true) →
      goNorm true (ds ++ rest) = goNorm true rest := by
  induction ds with
  | nil => intro rest _; rfl
  | cons hd tl ih =>
    intro rest hd2
    have hhd : hd.isDigit = true := hd2 hd (by simp)
    simp only [List.cons_append, goNorm, hhd, if_pos]
    exact ih rest (fun c hc => hd2 c (List.mem_cons_of_mem hd hc))

theorem goNorm_digit_run (ds : List Char) (rest : List Char) (hne : ds ≠ [])
    (hd2 : ∀ c ∈ ds, c.isDigit = true) :
    goNorm false (ds ++ rest) = 'N' :: goNorm true rest := by
  cases ds with
  | nil => exact absurd rfl hne
  | cons hd tl =>
    have hhd : hd.isDigit = true := hd2 hd (by simp)
    have ht := goNorm_digits_true tl rest (fun c hc => hd2 c (List.mem_cons_of_mem hd hc))
    simp [goNorm, hhd, ht]

theorem diffKeysGo_clean (recD recL : RecFn) (ns : String) (lkvs rkvs : List (String × Value))
    (recurse : Bool) (keys : List String)
    (h : ∀ k ∈ keys, diffKeyGo recD recL ns lkvs rkvs recurse k = ([], none)) :
    diffKeysGo recD recL ns lkvs rkvs recurse keys = ([], none) := by
  induction keys with
  | nil => rfl
  | cons hd tl ih =>
    have hh := h hd (by simp)
    have ht := ih (fun k hk => h k (List.mem_cons_of_mem hd hk))
    simp [diffKeysGo, hh, ht]

theorem diffKeysGo_noerr (recD recL : RecFn) (ns : String) (lkvs rkvs : List (String × Value))
    (recurse : Bool) (keys : List String)
    (h : ∀ k ∈ keys, (diffKeyGo recD recL ns lkvs rkvs recurse k).2 = none) :
    (diffKeysGo recD recL ns lkvs rkvs recurse keys).2 = none := by
  induction keys with
  | nil => rfl
  | cons hd tl ih =>
    have hh := h hd (by simp)
    have ht := ih (fun k hk => h k (List.mem_cons_of_mem hd hk))
    simp only [diffKeysGo]
    cases hx : diffKeyGo recD recL ns lkvs rkvs recurse hd with
    | mk ls e =>
      cases e with
      | some e2 => rw [hx] at hh; simp at hh
      | none => simpa using ht

theorem diffElemsGo_clean (recD recL : RecFn) (ns : String) (recurse : Bool) :
    ∀ (pairs : List (Value × Value)) (i : Nat),
      (∀ (n : Nat) (p : Value × Value), pairs[n]? = some p →
        diffElemGo recD recL ns recurse (i + n) p.1 p.2 = ([], none)) →
      diffElemsGo recD recL ns recurse i pairs = ([], none) := by
  intro pairs
  induction pairs with
  | nil => intro i _; rfl
  | cons hd tl ih =>
    intro i h
    have hh := h 0 hd (by simp)
    simp only [Nat.add_zero] at hh
    have ht := ih (i + 1) (fun n p hp => by
      have := h (n + 1) p (by simpa using hp)
      have he : i + (n + 1) = i + 1 + n := by omega
      rwa [he] at this)
    simp [diffElemsGo, hh, ht]

theorem diffElemsGo_noerr (recD recL : RecFn) (ns : String) (recurse : Bool) :
    ∀ (pairs : List (Value × Value)) (i : Nat),
      (∀ (n : Nat) (p : Value × Value), pairs[n]? = some p →
        (diffElemGo recD recL ns recurse (i + n) p.1 p.2).2 = none) →
      (diffElemsGo recD recL ns recurse i pairs).2 = none := by
  intro pairs
  induction pairs with
  | nil => intro i _; rfl
  | cons hd tl ih =>
    intro i h
    have hh := h 0 hd (by simp)
    simp only [Nat.add_zero] at hh
    have ht := ih (i + 1) (fun n p hp => by
      have := h (n + 1) p (by simpa using hp)
      have he : i + (n + 1) = i + 1 + n := by omega
      rwa [he] at this)
    simp only [diffElemsGo]
    cases hx : diffElemGo recD recL ns recurse i hd.1 hd.2 with
    | mk ls e =>
      cases e with
      | some e2 => rw [hx] at hh; simp at hh
      | none => simpa using ht

theorem enumFrom_mem_snd {α : Type} (xs : List α) :
    ∀ (k : Nat) (p : Nat × α), p ∈ xs.enumFrom k → p.2 ∈ xs := by
  induction xs with
  | nil => intro k p h; simp [List.enumFrom] at h
  | cons hd tl ih =>
    intro k p h
    simp only [List.enumFrom, List.mem_cons] at h
    rcases h with h1 | h2
    · subst h1; simp
    · exact List.mem_cons_of_mem hd (ih (k + 1) p h2)

theorem enum_mem_snd {α : Type} (xs : List α) (p : Nat × α) (h : p ∈ xs.enum) : p.2 ∈ xs :=
  enumFrom_mem_snd xs 0 p (by simpa [List.enum] using h)

theorem sizeV_dict (kvs : List (String × Value)) : sizeV (Value.dict kvs) = 1 + sizeVKV kvs := rfl

theorem sizeV_arr (xs : List Value) : sizeV (Value.arr xs) = 1 + sizeVL xs := rfl

theorem selfCleanVF_suff :
    ∀ (fuel : Nat) (ns : String) (key : Option String) (v : Value),
      sizeV v < fuel → selfCleanVF fuel ns key v = selfCleanV ns key v := by
  intro fuel
  induction fuel using Nat.strong_induction_on with
  | _ fuel ih =>
    intro ns key v hlt
    obtain ⟨f, rfl⟩ : ∃ f, fuel = f + 1 := ⟨fuel - 1, by have := sizeV_pos v; omega⟩
    cases v with
    | null => simp [selfCleanV, selfCleanVF]
    | bool b => simp [selfCleanV, selfCleanVF]
    | num n => simp [selfCleanV, selfCleanVF]
    | str s => simp [selfCleanV, selfCleanVF]
    | dict kvs =>
      simp only [selfCleanV, selfCleanVF]
      apply listAllCongr
      intro kv hkv
      have hsz : sizeV kv.2 < sizeVKV kvs := sizeVKV_mem kvs kv hkv
      have hs1 : sizeV kv.2 < f := by rw [sizeV_dict] at hlt; omega
      have hs2 : sizeV kv.2 < sizeV (Value.dict kvs) := by rw [sizeV_dict]; omega
      rw [ih f (by omega) _ _ _ hs1, ih (sizeV (Value.dict kvs)) (by omega) _ _ _ hs2]
    | arr xs =>
      simp only [selfCleanV, selfCleanVF]
      apply listAllCongr
      intro p hp
      have hmem : p.2 ∈ xs := enum_mem_snd xs p hp
      have hsz : sizeV p.2 < sizeVL xs := sizeVL_mem xs p.2 hmem
      have hs1 : sizeV p.2 < f := by rw [sizeV_arr] at hlt; omega
      have hs2 : sizeV p.2 < sizeV (Value.arr xs) := by rw [sizeV_arr]; omega
      rw [ih f (by omega) _ _ _ hs1, ih (sizeV (Value.arr xs)) (by omega) _ _ _ hs2]

theorem shapeAgreeF_suff :
    ∀ (fuel : Nat) (l r : Value),
      sizeV l + sizeV r < fuel → shapeAgreeF fuel l r = shapeAgree l r := by
  intro fuel
  induction fuel using Nat.strong_induction_on with
  | _ fuel ih =>
    intro l r hlt
    obtain ⟨f, rfl⟩ : ∃ f, fuel = f + 1 :=
      ⟨fuel - 1, by have := sizeV_pos l; have := sizeV_pos r; omega⟩
    have hwrap : sizeV l + sizeV r < Nat.succ (sizeV l + sizeV r) := Nat.lt_succ_self _
    cases l with
    | dict a =>
      cases r with
      | dict b =>
        simp only [shapeAgree, shapeAgreeF]
        apply listAllCongr
        intro k _
        cases hla : lookupD a k with
        | none => simp
        | some lv =>
          cases hlb : lookupD b k with
          | none => simp
          | some rv =>
            simp only []
            have s1 : sizeV lv < sizeVKV a := lookupD_sizeV a k lv hla
            have s2 : sizeV rv < sizeVKV b := lookupD_sizeV b k rv hlb
            rw [sizeV_dict, sizeV_dict] at hlt
            rw [ih f (by omega) lv rv (by omega),
              ih (sizeV (Value.dict a) + sizeV (Value.dict b))
                (by rw [sizeV_dict, sizeV_dict]; omega) lv rv
                (by rw [sizeV_dict, sizeV_dict]; omega)]
      | null => simp [shapeAgree, shapeAgreeF]
      | bool b => simp [shapeAgree, shapeAgreeF]
      | num n => simp [shapeAgree, shapeAgreeF]
      | str s => simp [shapeAgree, shapeAgreeF]
      | arr b => simp [shapeAgree, shapeAgreeF]
    | arr a =>
      cases r with
      | arr b =>
        simp only [shapeAgree, shapeAgreeF]
        apply listAllCongr
        intro p hp
        rcases zipLongest_mem a b p hp with ⟨h1, h2⟩
        cases hn1 : p.1.isNull with
        | true => simp [hn1]
        | false =>
          cases hn2 : p.2.isNull with
          | true => simp [hn1, hn2]
          | false =>
            have s1 : sizeV p.1 ≤ sizeVL a := by
              rcases h1 with hm | he
              · exact Nat.le_of_lt (sizeVL_mem a p.1 hm)
              · rw [he] at hn1; simp [Value.isNull] at hn1
            have s2 : sizeV p.2 ≤ sizeVL b := by
              rcases h2 with hm | he
              · exact Nat.le_of_lt (sizeVL_mem b p.2 hm)
              · rw [he] at hn2; simp [Value.isNull] at hn2
            rw [sizeV_arr, sizeV_arr] at hlt
            rw [ih f (by omega) p.1 p.2 (by omega),
              ih (sizeV (Value.arr a) + sizeV (Value.arr b))
                (by rw [sizeV_arr, sizeV_arr]; omega) p.1 p.2
                (by rw [sizeV_arr, sizeV_arr]; omega)]
      | null => simp [shapeAgree, shapeAgreeF]
      | bool b => simp [shapeAgree, shapeAgreeF]
      | num n => simp [shapeAgree, shapeAgreeF]
      | str s => simp [shapeAgree, shapeAgreeF]
      | dict b => simp [shapeAgree, shapeAgreeF]
    | null => cases r <;> simp [shapeAgree, shapeAgreeF]
    | bool bb => cases r <;> simp [shapeAgree, shapeAgreeF]
    | num n => cases r <;> simp [shapeAgree, shapeAgreeF]
    | str s => cases r <;> simp [shapeAgree, shapeAgreeF]

theorem hexAgreeF_suff :
    ∀ (fuel : Nat) (l r : Value),
      sizeV l + sizeV r < fuel → hexAgreeF fuel l r = hexAgree l r := by
  intro fuel
  induction fuel using Nat.strong_induction_on with
  | _ fuel ih =>
    intro l r hlt
    obtain ⟨f, rfl⟩ : ∃ f, fuel = f + 1 :=
      ⟨fuel - 1, by have := sizeV_pos l; have := sizeV_pos r; omega⟩
    cases l with
    | dict a =>
      cases r with
      | dict b =>
        simp only [hexAgree, hexAgreeF]
        apply listAllCongr
        intro k _
        cases hla : lookupD a k with
        | none => simp
        | some lv =>
          cases hlb : lookupD b k with
          | none => simp
          | some rv =>
            simp only []
            have s1 : sizeV lv < sizeVKV a := lookupD_sizeV a k lv hla
            have s2 : sizeV rv < sizeVKV b := lookupD_sizeV b k rv hlb
            rw [sizeV_dict, sizeV_dict] at hlt
            rw [ih f (by omega) lv rv (by omega),
              ih (sizeV (Value.dict a) + sizeV (Value.dict b))
                (by rw [sizeV_dict, sizeV_dict]; omega) lv rv
                (by rw [sizeV_dict, sizeV_dict]; omega)]
      | null => simp [hexAgree, hexAgreeF]
      | bool b => simp [hexAgree, hexAgreeF]
      | num n => simp [hexAgree, hexAgreeF]
      | str s => simp [hexAgree, hexAgreeF]
      | arr b => simp [hexAgree, hexAgreeF]
    | arr a =>
      cases r with
      | arr b =>
        simp only [hexAgree, hexAgreeF]
        apply listAllCongr
        intro p hp
        rcases zipLongest_mem a b p hp with ⟨h1, h2⟩
        cases hn1 : p.1.isNull with
        | true => simp [hn1]
        | false =>
          cases hn2 : p.2.isNull with
          | true => simp [hn1, hn2]
          | false =>
            have s1 : sizeV p.1 ≤ sizeVL a := by
              rcases h1 with hm | he
              · exact Nat.le_of_lt (sizeVL_mem a p.1 hm)
              · rw [he] at hn1; simp [Value.isNull] at hn1
            have s2 : sizeV p.2 ≤ sizeVL b := by
              rcases h2 with hm | he
              · exact Nat.le_of_lt (sizeVL_mem b p.2 hm)
              · rw [he] at hn2; simp [Value.isNull] at hn2
            rw [sizeV_arr, sizeV_arr] at hlt
            rw [ih f (by omega) p.1 p.2 (by omega),
              ih (sizeV (Value.arr a) + sizeV (Value.arr b))
                (by rw [sizeV_arr, sizeV_arr]; omega) p.1 p.2
                (by rw [sizeV_arr, sizeV_arr]; omega)]
      | null => simp [hexAgree, hexAgreeF]
      | bool b => simp [hexAgree, hexAgreeF]
      | num n => simp [hexAgree, hexAgreeF]
      | str s => simp [hexAgree, hexAgreeF]
      | dict b => simp [hexAgree, hexAgreeF]
    | null => cases r <;> simp [hexAgree, hexAgreeF]
    | bool bb => cases r <;> simp [hexAgree, hexAgreeF]
    | num n => cases r <;> simp [hexAgree, hexAgreeF]
    | str s => cases r <;> simp [hexAgree, hexAgreeF]

theorem comparator_self_ok (k : String) (v : Value) (hv : leafSelfOk k v = true)
    (hd : v.isDict = false) (ha : v.isArr = false) : getComparator k v v = Except.ok true := by
  by_cases hkc : k ∈ KEY_COMPARE
  · rw [leafSelfOk, if_pos (by simpa using hkc)] at hv
    cases v with
    | null => simp [getComparator, hkc, compare_hex, Value.isNull, pyEq]
    | str s =>
      rw [hexSelfOk] at hv
      simp only [Value.isNull, Bool.false_or] at hv
      obtain ⟨li, hli⟩ := Option.isSome_iff_exists.mp hv
      simp [getComparator, hkc, compare_hex, Value.isNull, hli]
    | bool b => simp [hexSelfOk, Value.isNull] at hv
    | num n => simp [hexSelfOk, Value.isNull] at hv
    | dict kvs => simp [Value.isDict] at hd
    | arr xs => simp [Value.isArr] at ha
  · simp [getComparator, hkc, compare_misc, pyEq_refl]

theorem selfDiff_main (fuel : Nat) :
    (∀ (ns : String) (key : Option String) (kvs : List (String × Value)),
      2 * sizeV (Value.dict kvs) ≤ fuel → selfCleanV ns key (Value.dict kvs) = true →
      diffFuel fuel true ns (Value.dict kvs) (Value.dict kvs) true = ([], none)) ∧
    (∀ (ns : String) (key : Option String) (xs : List Value),
      2 * sizeV (Value.arr xs) ≤ fuel → selfCleanV ns key (Value.arr xs) = true →
      diffFuel fuel false ns (Value.arr xs) (Value.arr xs) true = ([], none)) := by
  induction fuel with
  | zero =>
    constructor
    · intro ns key kvs hsz _
      have := sizeV_pos (Value.dict kvs); omega
    · intro ns key xs hsz _
      have := sizeV_pos (Value.arr xs); omega
  | succ f ih =>
    constructor
    · intro ns key kvs hsz hclean
      simp only [diffFuel, if_pos, diffDictsGo]
      apply diffKeysGo_clean
      intro k hk
      have hmem : k ∈ kvs.map Prod.fst := by
        have h0 := dedupKeys_sub _ k hk
        rcases List.mem_append.mp h0 with h1 | h1 <;> exact h1
      obtain ⟨v, hv⟩ := mem_fst_lookupD kvs k hmem
      cases hig : is_ignore_key ns k with
      | true => simp [diffKeyGo, hig]
      | false =>
        have hszv : sizeV v < sizeVKV kvs := lookupD_sizeV kvs k v hv
        have hcv : selfCleanV (joinNS ns k) (some k) v = true := by
          have hall := List.all_eq_true.mp (by
            simpa only [selfCleanV, selfCleanVF] using hclean)
          have h3 := hall (k, v) (lookupD_mem_pair kvs k v hv)
          simp only [hig, Bool.false_or] at h3
          rwa [selfCleanVF_suff (sizeV (Value.dict kvs)) _ _ v
            (by rw [sizeV_dict]; omega)] at h3
        rw [sizeV_dict] at hsz
        cases v with
        | dict kvs2 =>
          simp only [diffKeyGo, hig, hv, Value.isDict, Value.isArr, Bool.true_or,
            Bool.false_eq_true, if_neg, if_true]
          exact ih.1 (joinNS ns k) (some k) kvs2
            (by rw [sizeV_dict] at hszv ⊢; omega) hcv
        | arr xs2 =>
          simp only [diffKeyGo, hig, hv, Value.isDict, Value.isArr, Bool.or_self,
            Bool.or_false, Bool.false_or, Bool.true_or, Bool.false_eq_true, if_neg, if_true]
          exact ih.2 (joinNS ns k) (some k) xs2
            (by rw [sizeV_arr] at hszv ⊢; omega) hcv
        | null =>
          have hls : leafSelfOk k Value.null = true := by
            simpa only [selfCleanVF_suff, selfCleanV, selfCleanVF] using hcv
          simp [diffKeyGo, hig, hv, Value.isDict, Value.isArr,
            comparator_self_ok k Value.null hls rfl rfl]
        | bool b =>
          have hls : leafSelfOk k (Value.bool b) = true := by
            simpa only [selfCleanVF_suff, selfCleanV, selfCleanVF] using hcv
          simp [diffKeyGo, hig, hv, Value.isDict, Value.isArr,
            comparator_self_ok k (Value.bool b) hls rfl rfl]
        | num n =>
          have hls : leafSelfOk k (Value.num n) = true := by
            simpa only [selfCleanVF_suff, selfCleanV, selfCleanVF] using hcv
          simp [diffKeyGo, hig, hv, Value.isDict, Value.isArr,
            comparator_self_ok k (Value.num n) hls rfl rfl]
        | str s =>
          have hls : leafSelfOk k (Value.str s) = true := by
            simpa only [selfCleanVF_suff, selfCleanV, selfCleanVF] using hcv
          simp [diffKeyGo, hig, hv, Value.isDict, Value.isArr,
            comparator_self_ok k (Value.str s) hls rfl rfl]
    · intro ns key xs hsz hclean
      simp only [diffFuel, diffListsGo, pyIter]
      rw [zipLongest_self]
      apply diffElemsGo_clean
      intro n p hp
      rw [List.getElem?_map] at hp
      obtain ⟨v, hvn, hpv⟩ := Option.map_eq_some'.mp hp
      subst hpv
      have hmem : v ∈ xs := List.get?_mem (by rw [List.get?_eq_getElem?]; exact hvn)
      have hszv : sizeV v < sizeVL xs := sizeVL_mem xs v hmem
      have hcv : selfCleanV (ns ++ "." ++ toString n) none v = true := by
        have hall := List.all_eq_true.mp (by
          simpa only [selfCleanV, selfCleanVF] using hclean)
        have h3 := hall (n, v) (enum_mem_of_elt xs n v hvn)
        rwa [selfCleanVF_suff (sizeV (Value.arr xs)) _ _ v
          (by rw [sizeV_arr]; omega)] at h3
      rw [sizeV_arr] at hsz
      rw [Nat.zero_add]
      cases v with
      | null => simp [diffElemGo, Value.isNull, Value.isDict, Value.isArr, compare_misc, pyEq_refl]
      | bool b => simp [diffElemGo, Value.isNull, Value.isDict, Value.isArr, compare_misc, pyEq_refl]
      | num nn => simp [diffElemGo, Value.isNull, Value.isDict, Value.isArr, compare_misc, pyEq_refl]
      | str s => simp [diffElemGo, Value.isNull, Value.isDict, Value.isArr, compare_misc, pyEq_refl]
      | dict kvs2 =>
        simp only [diffElemGo, Value.isNull, Value.isDict, Bool.not_false, Bool.false_and,
          Bool.and_false, Bool.true_or, Bool.false_eq_true, if_neg, if_true]
        exact ih.1 (ns ++ "." ++ toString n) none kvs2
          (by rw [sizeV_dict] at hszv ⊢; omega) hcv
      | arr xs2 =>
        simp only [diffElemGo, Value.isNull, Value.isDict, Value.isArr, Bool.not_false,
          Bool.false_and, Bool.and_false, Bool.or_self, Bool.true_or,
          Bool.false_eq_true, if_neg, if_true]
        exact ih.2 (ns ++ "." ++ toString n) none xs2
          (by rw [sizeV_arr] at hszv ⊢; omega) hcv

theorem diff_dicts_self_deep (ns : String) (key : Option String) (kvs : List (String × Value))
    (h : selfCleanV ns key (Value.dict kvs) = true) :
    diff_dicts ns (Value.dict kvs) (Value.dict kvs) true = ([], none) := by
  have hm := (selfDiff_main (Nat.succ (sizeV (Value.dict kvs) + sizeV (Value.dict kvs)))).1
    ns key kvs (by omega) h
  simpa only [diff_dicts] using hm

theorem diff_lists_self_deep (ns : String) (key : Option String) (xs : List Value)
    (h : selfCleanV ns key (Value.arr xs) = true) :
    diff_lists ns (Value.arr xs) (Value.arr xs) true = ([], none) := by
  have hm := (selfDiff_main (Nat.succ (sizeV (Value.arr xs) + sizeV (Value.arr xs)))).2
    ns key xs (by omega) h
  simpa only [diff_lists] using hm

theorem diff_dicts_self_shallow (ns : String) (kvs : List (String × Value))
    (h : shallowCleanDict ns kvs = true) :
    diff_dicts ns (Value.dict kvs) (Value.dict kvs) false = ([], none) := by
  simp only [diff_dicts, diffFuel, diffDictsGo]
  apply diffKeysGo_clean
  intro k hk
  have hmem : k ∈ kvs.map Prod.fst := by
    have h0 := dedupKeys_sub _ k hk
    rcases List.mem_append.mp h0 with h1 | h1 <;> exact h1
  obtain ⟨v, hv⟩ := mem_fst_lookupD kvs k hmem
  cases hig : is_ignore_key ns k with
  | true => simp [diffKeyGo, hig]
  | false =>
    have h3 : (v.isDict || v.isArr || leafSelfOk k v) = true := by
      have hall := List.all_eq_true.mp (by simpa only [shallowCleanDict] using h)
      have h4 := hall (k, v) (lookupD_mem_pair kvs k v hv)
      simpa [hig] using h4
    cases hd : v.isDict with
    | true => simp [diffKeyGo, hig, hv, hd]
    | false =>
      cases ha : v.isArr with
      | true => simp [diffKeyGo, hig, hv, hd, ha]
      | false =>
        have hls : leafSelfOk k v = true := by simpa [hd, ha] using h3
        simp [diffKeyGo, hig, hv, hd, ha, comparator_self_ok k v hls hd ha]

theorem diffElemsGo_strs (recD recL : RecFn) (ns : String) (recurse : Bool)
    (ll : List Value) (hstr : ∀ v ∈ ll, v.isStrV = true) (i : Nat) :
    diffElemsGo recD recL ns recurse i (zipLongest ll ll) = ([], none) := by
  rw [zipLongest_self]
  apply diffElemsGo_clean
  intro n p hp
  rw [List.getElem?_map] at hp
  obtain ⟨v, hvn, hpv⟩ := Option.map_eq_some'.mp hp
  subst hpv
  have hmem : v ∈ ll := List.get?_mem (by rw [List.get?_eq_getElem?]; exact hvn)
  have hs := hstr v hmem
  cases v with
  | str s => simp [diffElemGo, Value.isNull, Value.isDict, Value.isArr, compare_misc, pyEq_refl]
  | null => simp [Value.isStrV] at hs
  | bool b => simp [Value.isStrV] at hs
  | num n2 => simp [Value.isStrV] at hs
  | arr xs => simp [Value.isStrV] at hs
  | dict kvs => simp [Value.isStrV] at hs

theorem diff_lists_dict_self (ns : String) (kvs : List (String × Value)) (recurse : Bool) :
    diff_lists ns (Value.dict kvs) (Value.dict kvs) recurse = ([], none) := by
  simp only [diff_lists, diffFuel, diffListsGo, pyIter]
  apply diffElemsGo_strs
  intro v hv
  rcases List.mem_map.mp hv with ⟨kv, _, he⟩
  subst he; rfl

theorem diff_lists_str_self (ns : String) (s : String) (recurse : Bool) :
    diff_lists ns (Value.str s) (Value.str s) recurse = ([], none) := by
  simp only [diff_lists, diffFuel, diffListsGo, pyIter]
  apply diffElemsGo_strs
  intro v hv
  rcases List.mem_map.mp hv with ⟨c, _, he⟩
  subst he; rfl

theorem subShallow_diff (kvs : List (String × Value)) (name : String)
    (h : subShallowClean kvs name = true) :
    diff_dicts name (getDefault kvs name (Value.dict []))
      (getDefault kvs name (Value.dict [])) false = ([], none) := by
  cases hg : getDefault kvs name (Value.dict []) with
  | dict k2 =>
    rw [subShallowClean, hg] at h
    exact diff_dicts_self_shallow name k2 h
  | null => rw [subShallowClean, hg] at h; simp at h
  | bool b => rw [subShallowClean, hg] at h; simp at h
  | num n => rw [subShallowClean, hg] at h; simp at h
  | str s => rw [subShallowClean, hg] at h; simp at h
  | arr xs => rw [subShallowClean, hg] at h; simp at h

theorem subDeepDict_diff (kvs : List (String × Value)) (name : String)
    (h : subDeepDictClean kvs name = true) :
    diff_dicts name (getDefault kvs name (Value.dict []))
      (getDefault kvs name (Value.dict [])) true = ([], none) := by
  cases hg : getDefault kvs name (Value.dict []) with
  | dict k2 =>
    rw [subDeepDictClean, hg] at h
    exact diff_dicts_self_deep name none k2 h
  | null => rw [subDeepDictClean, hg] at h; simp at h
  | bool b => rw [subDeepDictClean, hg] at h; simp at h
  | num n => rw [subDeepDictClean, hg] at h; simp at h
  | str s => rw [subDeepDictClean, hg] at h; simp at h
  | arr xs => rw [subDeepDictClean, hg] at h; simp at h

theorem subDeepList_diff (kvs : List (String × Value)) (name : String)
    (h : subDeepListClean kvs name = true) :
    diff_lists name (getDefault kvs name (Value.dict []))
      (getDefault kvs name (Value.dict [])) true = ([], none) := by
  cases hg : getDefault kvs name (Value.dict []) with
  | arr xs =>
    rw [subDeepListClean, hg] at h
    exact diff_lists_self_deep name none xs h
  | dict k2 => exact diff_lists_dict_self name k2 true
  | str s => exact diff_lists_str_self name s true
  | null => rw [subDeepListClean, hg] at h; simp at h
  | bool b => rw [subDeepListClean, hg] at h; simp at h
  | num n => rw [subDeepListClean, hg] at h; simp at h

theorem moduleList_diff (kvs : List (String × Value)) (name : String)
    (h : modulesCleanP kvs name = true) :
    moduleListDiff name kvs kvs = ([], none) := by
  rw [moduleListDiff]
  cases hg : getDefault kvs name (Value.arr []) with
  | arr xs =>
    simp only [modulesCleanP, hg] at h
    cases hs : sortModules xs with
    | some sorted =>
      simp only [hs] at h ⊢
      exact diff_lists_self_deep name none sorted h
    | none => simp only [hs] at h; simp at h
  | dict k2 => simp only [modulesCleanP, hg] at h; simp at h
  | null => simp only [modulesCleanP, hg] at h; simp at h
  | bool b => simp only [modulesCleanP, hg] at h; simp at h
  | num n => simp only [modulesCleanP, hg] at h; simp at h
  | str s => simp only [modulesCleanP, hg] at h; simp at h

theorem driver_diff_self_clean (d : Value) (h : cleanDoc d = true) :
    driver_diff d d = ([], none) := by
  cases d with
  | dict kvs =>
    rw [cleanDoc] at h
    simp only [Bool.and_eq_true] at h
    obtain ⟨⟨⟨⟨⟨⟨⟨h1, h2⟩, h3⟩, h4⟩, h5⟩, h6⟩, h7⟩, h8⟩ := h
    have c0 := diff_dicts_self_shallow "" kvs h1
    have c1 := subShallow_diff kvs "crash_info" h2
    have c2 := subShallow_diff kvs "system_info" h3
    have c3 := subShallow_diff kvs "sensitive" h4
    have c4 := subDeepDict_diff kvs "crashing_thread" h5
    have c5 := subDeepList_diff kvs "threads" h6
    have c6 := moduleList_diff kvs "modules" h7
    have c7 := moduleList_diff kvs "unloaded_modules" h8
    rw [driver_diff, c0, c1, c2, c3, c4, c5, c6, c7]
    simp [dcomb]
  | null => simp [cleanDoc] at h
  | bool b => simp [cleanDoc] at h
  | num n => simp [cleanDoc] at h
  | str s => simp [cleanDoc] at h
  | arr xs => simp [cleanDoc] at h

theorem isNull_eq (v : Value) (h : v.isNull = true) : v = Value.null := by
  cases v <;> simp [Value.isNull] at h ⊢

theorem snd_ite_none {c : Prop} [Decidable c] (x y : DOut) (hx : x.2 = none)
    (hy : y.2 = none) : (if c then x else y).2 = none := by
  split <;> assumption

theorem comparator_noerr (k : String) (lv rv : Value) (h : hexPairOk k lv rv = true) :
    ∃ bb, getComparator k lv rv = Except.ok bb := by
  by_cases hkc : k ∈ KEY_COMPARE
  case neg => exact ⟨compare_misc k lv rv, by simp [getComparator, hkc]⟩
  case pos =>
    have hg : getComparator k lv rv = compare_hex k lv rv := by simp [getComparator, hkc]
    rw [hg]
    rw [hexPairOk, if_pos (by simpa using hkc)] at h
    cases hn1 : lv.isNull with
    | true =>
      have he := isNull_eq lv hn1
      subst he
      exact ⟨pyEq Value.null rv, by simp [compare_hex, Value.isNull]⟩
    | false =>
      cases hn2 : rv.isNull with
      | true =>
        have he := isNull_eq rv hn2
        subst he
        have hc : Value.null.isNull = true := rfl
        exact ⟨pyEq lv Value.null, by simp [compare_hex, hn1, hc]⟩
      | false =>
        simp only [hn1, hn2, Bool.false_or] at h
        cases lv with
        | null => simp [Value.isNull] at hn1
        | str s =>
          cases rv with
          | null => simp [Value.isNull] at hn2
          | str t =>
            simp only [hexOperandOk, Bool.and_eq_true] at h
            obtain ⟨hs, hrt⟩ := h
            obtain ⟨li, hli⟩ := Option.isSome_iff_exists.mp hs
            obtain ⟨ri, hri⟩ := Option.isSome_iff_exists.mp hrt
            exact ⟨li == ri, by simp [compare_hex, Value.isNull, hli, hri]⟩
          | bool b =>
            simp only [hexOperandOk] at h
            obtain ⟨li, hli⟩ := Option.isSome_iff_exists.mp h
            exact ⟨false, by simp [compare_hex, Value.isNull, hli]⟩
          | num n =>
            simp only [hexOperandOk] at h
            obtain ⟨li, hli⟩ := Option.isSome_iff_exists.mp h
            exact ⟨false, by simp [compare_hex, Value.isNull, hli]⟩
          | arr a =>
            simp only [hexOperandOk] at h
            obtain ⟨li, hli⟩ := Option.isSome_iff_exists.mp h
            exact ⟨false, by simp [compare_hex, Value.isNull, hli]⟩
          | dict a =>
            simp only [hexOperandOk] at h
            obtain ⟨li, hli⟩ := Option.isSome_iff_exists.mp h
            exact ⟨false, by simp [compare_hex, Value.isNull, hli]⟩
        | bool b => exact ⟨false, by simp [compare_hex, hn1, hn2]⟩
        | num n => exact ⟨false, by simp [compare_hex, hn1, hn2]⟩
        | arr a => exact ⟨false, by simp [compare_hex, hn1, hn2]⟩
        | dict a => exact ⟨false, by simp [compare_hex, hn1, hn2]⟩

theorem isDict_eq (v : Value) (h : v.isDict = true) : ∃ kvs, v = Value.dict kvs := by
  cases v <;> simp [Value.isDict] at h ⊢

theorem isArr_eq (v : Value) (h : v.isArr = true) : ∃ xs, v = Value.arr xs := by
  cases v <;> simp [Value.isArr] at h ⊢

theorem shape_flags (lv rv : Value) (h : shapeAgree lv rv = true) :
    lv.isDict = rv.isDict ∧ lv.isArr = rv.isArr := by
  cases lv <;> cases rv <;>
    simp [shapeAgree, shapeAgreeF, Value.isDict, Value.isArr] at h ⊢

theorem diffKeyGo_ignored (recD recL : RecFn) (ns : String) (lkvs rkvs : List (String × Value))
    (recurse : Bool) (k : String) (hig : is_ignore_key ns k = true) :
    diffKeyGo recD recL ns lkvs rkvs recurse k = ([], none) := by
  simp [diffKeyGo, hig]

theorem diffKeyGo_left_only (recD recL : RecFn) (ns : String) (lkvs rkvs : List (String × Value))
    (recurse : Bool) (k : String) (lv : Value) (hig : is_ignore_key ns k = false)
    (hla : lookupD lkvs k = some lv) (hlb : lookupD rkvs k = none) :
    diffKeyGo recD recL ns lkvs rkvs recurse k =
      (if lv.isNull && is_null_ok ns k then ([], none)
       else if lv.isFalse && is_false_ok ns k then ([], none)
       else ([print_line (joinNS ns k) (fix_value lv) ">" ""], none)) := by
  simp [diffKeyGo, hig, hla, hlb]

theorem diffKeyGo_right_only (recD recL : RecFn) (ns : String) (lkvs rkvs : List (String × Value))
    (recurse : Bool) (k : String) (rv : Value) (hig : is_ignore_key ns k = false)
    (hla : lookupD lkvs k = none) (hlb : lookupD rkvs k = some rv) :
    diffKeyGo recD recL ns lkvs rkvs recurse k =
      ([print_line (joinNS ns k) "" "<" (fix_value rv)], none) := by
  simp [diffKeyGo, hig, hla, hlb]

theorem diffKeyGo_both_dict (recD recL : RecFn) (ns : String) (lkvs rkvs : List (String × Value))
    (recurse : Bool) (k : String) (lv rv : Value) (hig : is_ignore_key ns k = false)
    (hla : lookupD lkvs k = some lv) (hlb : lookupD rkvs k = some rv)
    (h : (lv.isDict || rv.isDict) = true) :
    diffKeyGo recD recL ns lkvs rkvs recurse k =
      (if recurse then recD (joinNS ns k) lv rv else ([], none)) := by
  simp [diffKeyGo, hig, hla, hlb, h]

theorem diffKeyGo_both_arr (recD recL : RecFn) (ns : String) (lkvs rkvs : List (String × Value))
    (recurse : Bool) (k : String) (lv rv : Value) (hig : is_ignore_key ns k = false)
    (hla : lookupD lkvs k = some lv) (hlb : lookupD rkvs k = some rv)
    (hd : (lv.isDict || rv.isDict) = false) (h : (lv.isArr || rv.isArr) = true) :
    diffKeyGo recD recL ns lkvs rkvs recurse k =
      (if recurse then recL (joinNS ns k) lv rv else ([], none)) := by
  simp [diffKeyGo, hig, hla, hlb, hd, h]

theorem diffKeyGo_both_leaf (recD recL : RecFn) (ns : String) (lkvs rkvs : List (String × Value))
    (recurse : Bool) (k : String) (lv rv : Value) (hig : is_ignore_key ns k = false)
    (hla : lookupD lkvs k = some lv) (hlb : lookupD rkvs k = some rv)
    (hd : (lv.isDict || rv.isDict) = false) (ha : (lv.isArr || rv.isArr) = false) :
    diffKeyGo recD recL ns lkvs rkvs recurse k =
      (match getComparator k lv rv with
       | Except.error e => ([], some e)
       | Except.ok true => ([], none)
       | Except.ok false =>
         ([print_line (joinNS ns k) (fix_value lv) "|" (fix_value rv)], none)) := by
  simp [diffKeyGo, hig, hla, hlb, hd, ha]

theorem diffElemGo_left_only (recD recL : RecFn) (ns : String) (recurse : Bool) (i : Nat)
    (lv rv : Value) (hn1 : lv.isNull = false) (hn2 : rv.isNull = true) :
    diffElemGo recD recL ns recurse i lv rv =
      ([print_line (ns ++ "." ++ toString i) (pyStr lv) ">" ""], none) := by
  simp [diffElemGo, hn1, hn2]

theorem diffElemGo_right_only (recD recL : RecFn) (ns : String) (recurse : Bool) (i : Nat)
    (lv rv : Value) (hn1 : lv.isNull = true) (hn2 : rv.isNull = false) :
    diffElemGo recD recL ns recurse i lv rv =
      ([print_line (ns ++ "." ++ toString i) "" "<" (pyStr rv)], none) := by
  simp [diffElemGo, hn1, hn2]

theorem diffElemGo_both_null (recD recL : RecFn) (ns : String) (recurse : Bool) (i : Nat) :
    diffElemGo recD recL ns recurse i Value.null Value.null = ([], none) := by
  simp [diffElemGo, Value.isNull, Value.isDict, Value.isArr, compare_misc, pyEq]

theorem diffElemGo_both_dict (recD recL : RecFn) (ns : String) (recurse : Bool) (i : Nat)
    (lv rv : Value) (hn1 : lv.isNull = false) (hn2 : rv.isNull = false)
    (h : (lv.isDict || rv.isDict) = true) :
    diffElemGo recD recL ns recurse i lv rv =
      (if recurse then recD (ns ++ "." ++ toString i) lv rv else ([], none)) := by
  simp [diffElemGo, hn1, hn2, h]

theorem diffElemGo_both_arr (recD recL : RecFn) (ns : String) (recurse : Bool) (i : Nat)
    (lv rv : Value) (hn1 : lv.isNull = false) (hn2 : rv.isNull = false)
    (hd : (lv.isDict || rv.isDict) = false) (h : (lv.isArr || rv.isArr) = true) :
    diffElemGo recD recL ns recurse i lv rv =
      (if recurse then recL (ns ++ "." ++ toString i) lv rv else ([], none)) := by
  simp [diffElemGo, hn1, hn2, hd, h]

theorem diffElemGo_both_leaf (recD recL : RecFn) (ns : String) (recurse : Bool) (i : Nat)
    (lv rv : Value) (hn1 : lv.isNull = false) (hn2 : rv.isNull = false)
    (hd : (lv.isDict || rv.isDict) = false) (ha : (lv.isArr || rv.isArr) = false) :
    diffElemGo recD recL ns recurse i lv rv =
      (if compare_misc (lastSegment ns) lv rv then ([], none)
       else ([print_line (ns ++ "." ++ toString i) (fix_value lv) "|" (fix_value rv)], none)) := by
  simp [diffElemGo, hn1, hn2, hd, ha]

theorem noErr_main (fuel : Nat) :
    (∀ (ns : String) (rec : Bool) (a b : List (String × Value)),
      sizeV (Value.dict a) + sizeV (Value.dict b) ≤ fuel →
      shapeAgree (Value.dict a) (Value.dict b) = true →
      hexAgree (Value.dict a) (Value.dict b) = true →
      (diffFuel fuel true ns (Value.dict a) (Value.dict b) rec).2 = none) ∧
    (∀ (ns : String) (rec : Bool) (xs ys : List Value),
      sizeV (Value.arr xs) + sizeV (Value.arr ys) ≤ fuel →
      shapeAgree (Value.arr xs) (Value.arr ys) = true →
      hexAgree (Value.arr xs) (Value.arr ys) = true →
      (diffFuel fuel false ns (Value.arr xs) (Value.arr ys) rec).2 = none) := by
  induction fuel with
  | zero =>
    constructor
    · intro ns rec a b hsz _ _
      have := sizeV_pos (Value.dict a); have := sizeV_pos (Value.dict b); omega
    · intro ns rec xs ys hsz _ _
      have := sizeV_pos (Value.arr xs); have := sizeV_pos (Value.arr ys); omega
  | succ f ih =>
    constructor
    · intro ns rec a b hsz hshape hhex
      simp only [diffFuel, if_pos, diffDictsGo]
      apply diffKeysGo_noerr
      intro k hk
      cases hig : is_ignore_key ns k with
      | true => rw [diffKeyGo_ignored _ _ _ _ _ _ _ hig]
      | false =>
        cases hla : lookupD a k with
        | none =>
          cases hlb : lookupD b k with
          | none => simp [diffKeyGo, hig, hla, hlb]
          | some rv => rw [diffKeyGo_right_only _ _ _ _ _ _ _ _ hig hla hlb]
        | some lv =>
          cases hlb : lookupD b k with
          | none =>
            rw [diffKeyGo_left_only _ _ _ _ _ _ _ _ hig hla hlb]
            exact snd_ite_none _ _ rfl (snd_ite_none _ _ rfl rfl)
          | some rv =>
            have hsk0 := List.all_eq_true.mp (by
              simpa only [shapeAgree, shapeAgreeF] using hshape) k hk
            have hxk0 := List.all_eq_true.mp (by
              simpa only [hexAgree, hexAgreeF] using hhex) k hk
            simp only [hla, hlb] at hsk0 hxk0
            have s1 : sizeV lv < sizeVKV a := lookupD_sizeV a k lv hla
            have s2 : sizeV rv < sizeVKV b := lookupD_sizeV b k rv hlb
            rw [sizeV_dict, sizeV_dict] at hsz
            have hsk : shapeAgree lv rv = true := by
              rwa [shapeAgreeF_suff (sizeV (Value.dict a) + sizeV (Value.dict b)) lv rv
                (by rw [sizeV_dict, sizeV_dict]; omega)] at hsk0
            have hflag := shape_flags lv rv hsk
            cases hd : (lv.isDict || rv.isDict) with
            | true =>
              have hld : lv.isDict = true := by
                cases hx : lv.isDict with
                | true => rfl
                | false =>
                  have h2 := hflag.1
                  rw [hx] at h2
                  rw [hx, ← h2] at hd
                  simp at hd
              have hxr : hexAgree lv rv = true := by
                rw [if_pos (by simp [hld])] at hxk0
                rwa [hexAgreeF_suff (sizeV (Value.dict a) + sizeV (Value.dict b)) lv rv
                  (by rw [sizeV_dict, sizeV_dict]; omega)] at hxk0
              obtain ⟨la, rfl⟩ := isDict_eq lv hld
              obtain ⟨rb, rfl⟩ := isDict_eq rv (by rw [← hflag.1]; rfl)
              rw [diffKeyGo_both_dict _ _ _ _ _ _ _ _ _ hig hla hlb hd]
              cases rec with
              | false => rfl
              | true =>
                have hr := ih.1 (joinNS ns k) true la rb
                  (by rw [sizeV_dict] at s1 s2; rw [sizeV_dict, sizeV_dict]; omega) hsk hxr
                simpa using hr
            | false =>
              cases ha : (lv.isArr || rv.isArr) with
              | true =>
                have hla2 : lv.isArr = true := by
                  cases hx : lv.isArr with
                  | true => rfl
                  | false =>
                    have h2 := hflag.2
                    rw [hx] at h2
                    rw [hx, ← h2] at ha
                    simp at ha
                have hxr : hexAgree lv rv = true := by
                  rw [if_pos (by simp [hla2])] at hxk0
                  rwa [hexAgreeF_suff (sizeV (Value.dict a) + sizeV (Value.dict b)) lv rv
                    (by rw [sizeV_dict, sizeV_dict]; omega)] at hxk0
                obtain ⟨xa, rfl⟩ := isArr_eq lv hla2
                obtain ⟨xb, rfl⟩ := isArr_eq rv (by rw [← hflag.2]; rfl)
                rw [diffKeyGo_both_arr _ _ _ _ _ _ _ _ _ hig hla hlb hd ha]
                cases rec with
                | false => rfl
                | true =>
                  have hr := ih.2 (joinNS ns k) true xa xb
                    (by rw [sizeV_arr] at s1 s2; rw [sizeV_arr, sizeV_arr]; omega) hsk hxr
                  simpa using hr
              | false =>
                have hpair : hexPairOk k lv rv = true := by
                  rwa [if_neg (by
                    simp only [Bool.or_eq_false_iff] at hd ha
                    simp [hd.1, hd.2, ha.1, ha.2])] at hxk0
                obtain ⟨bb, hbb⟩ := comparator_noerr k lv rv hpair
                rw [diffKeyGo_both_leaf _ _ _ _ _ _ _ _ _ hig hla hlb hd ha, hbb]
                cases bb with
                | true => rfl
                | false => rfl
    · intro ns rec xs ys hsz hshape hhex
      simp only [diffFuel, diffListsGo, pyIter]
      apply diffElemsGo_noerr
      intro n p hp
      have hmem : p ∈ zipLongest xs ys :=
        List.get?_mem (by rw [List.get?_eq_getElem?]; exact hp)
      cases hn1 : p.1.isNull with
      | false =>
        cases hn2 : p.2.isNull with
        | true => rw [diffElemGo_left_only _ _ _ _ _ _ _ hn1 hn2]
        | false =>
          have hsk0 := List.all_eq_true.mp (by
            simpa only [shapeAgree, shapeAgreeF] using hshape) p hmem
          have hxk0 := List.all_eq_true.mp (by
            simpa only [hexAgree, hexAgreeF] using hhex) p hmem
          simp only [hn1, hn2, Bool.false_or] at hsk0
          rw [if_neg (by simp [hn1, hn2])] at hxk0
          have hels := zipLongest_elt xs ys n p hp
          have hm1 : p.1 ∈ xs := by
            cases hx : xs[n]? with
            | none => rw [hx] at hels; rw [hels.1] at hn1; simp [Value.isNull] at hn1
            | some w =>
              rw [hx] at hels
              rw [hels.1]
              exact List.get?_mem (by rw [List.get?_eq_getElem?]; exact hx)
          have hm2 : p.2 ∈ ys := by
            cases hx : ys[n]? with
            | none => rw [hx] at hels; rw [hels.2] at hn2; simp [Value.isNull] at hn2
            | some w =>
              rw [hx] at hels
              rw [hels.2]
              exact List.get?_mem (by rw [List.get?_eq_getElem?]; exact hx)
          have s1 : sizeV p.1 < sizeVL xs := sizeVL_mem xs p.1 hm1
          have s2 : sizeV p.2 < sizeVL ys := sizeVL_mem ys p.2 hm2
          rw [sizeV_arr, sizeV_arr] at hsz
          have hsk : shapeAgree p.1 p.2 = true := by
            rwa [shapeAgreeF_suff (sizeV (Value.arr xs) + sizeV (Value.arr ys)) p.1 p.2
              (by rw [sizeV_arr, sizeV_arr]; omega)] at hsk0
          have hflag := shape_flags p.1 p.2 hsk
          cases hd : (p.1.isDict || p.2.isDict) with
          | true =>
            have hld : p.1.isDict = true := by
              cases hx : p.1.isDict with
              | true => rfl
              | false =>
                have h2 := hflag.1
                rw [hx] at h2
                rw [hx, ← h2] at hd
                simp at hd
            have hxr : hexAgree p.1 p.2 = true := by
              rw [if_pos (by simp [hld])] at hxk0
              rwa [hexAgreeF_suff (sizeV (Value.arr xs) + sizeV (Value.arr ys)) p.1 p.2
                (by rw [sizeV_arr, sizeV_arr]; omega)] at hxk0
            obtain ⟨la, he1⟩ := isDict_eq p.1 hld
            obtain ⟨rb, he2⟩ := isDict_eq p.2 (by rw [← hflag.1]; exact hld)
            rw [diffElemGo_both_dict _ _ _ _ _ _ _ hn1 hn2 hd]
            cases rec with
            | false => rfl
            | true =>
              rw [he1] at hsk hxr s1
              rw [he2] at hsk hxr s2
              rw [sizeV_dict] at s1 s2
              have hr := ih.1 (ns ++ "." ++ toString (0 + n)) true la rb
                (by rw [sizeV_dict, sizeV_dict]; omega) hsk hxr
              rw [he1, he2]
              simpa using hr
          | false =>
            cases ha : (p.1.isArr || p.2.isArr) with
            | true =>
              have hla2 : p.1.isArr = true := by
                cases hx : p.1.isArr with
                | true => rfl
                | false =>
                  have h2 := hflag.2
                  rw [hx] at h2
                  rw [hx, ← h2] at ha
                  simp at ha
              have hxr : hexAgree p.1 p.2 = true := by
                rw [if_pos (by simp [hla2])] at hxk0
                rwa [hexAgreeF_suff (sizeV (Value.arr xs) + sizeV (Value.arr ys)) p.1 p.2
                  (by rw [sizeV_arr, sizeV_arr]; omega)] at hxk0
              obtain ⟨xa, he1⟩ := isArr_eq p.1 hla2
              obtain ⟨xb, he2⟩ := isArr_eq p.2 (by rw [← hflag.2]; exact hla2)
              rw [diffElemGo_both_arr _ _ _ _ _ _ _ hn1 hn2 hd ha]
              cases rec with
              | false => rfl
              | true =>
                rw [he1] at hsk hxr s1
                rw [he2] at hsk hxr s2
                rw [sizeV_arr] at s1 s2
                have hr := ih.2 (ns ++ "." ++ toString (0 + n)) true xa xb
                  (by rw [sizeV_arr, sizeV_arr]; omega) hsk hxr
                rw [he1, he2]
                simpa using hr
            | false =>
              rw [diffElemGo_both_leaf _ _ _ _ _ _ _ hn1 hn2 hd ha]
              exact snd_ite_none _ _ rfl rfl
      | true =>
        cases hn2 : p.2.isNull with
        | false => rw [diffElemGo_right_only _ _ _ _ _ _ _ hn1 hn2]
        | true =>
          have he1 := isNull_eq p.1 hn1
          have he2 := isNull_eq p.2 hn2
          rw [he1, he2, diffElemGo_both_null]

theorem diff_dicts_noerr (ns : String) (rec : Bool) (a b : List (String × Value))
    (hs : shapeAgree (Value.dict a) (Value.dict b) = true)
    (hx : hexAgree (Value.dict a) (Value.dict b) = true) :
    (diff_dicts ns (Value.dict a) (Value.dict b) rec).2 = none := by
  have hm := (noErr_main (Nat.succ (sizeV (Value.dict a) + sizeV (Value.dict b)))).1
    ns rec a b (by omega) hs hx
  simpa only [diff_dicts] using hm

theorem diff_lists_noerr (ns : String) (rec : Bool) (xs ys : List Value)
    (hs : shapeAgree (Value.arr xs) (Value.arr ys) = true)
    (hx : hexAgree (Value.arr xs) (Value.arr ys) = true) :
    (diff_lists ns (Value.arr xs) (Value.arr ys) rec).2 = none := by
  have hm := (noErr_main (Nat.succ (sizeV (Value.arr xs) + sizeV (Value.arr ys)))).2
    ns rec xs ys (by omega) hs hx
  simpa only [diff_lists] using hm

theorem normalizeDigits_data (s : String) : (normalizeDigits s).data = goNorm false s.data := rfl

theorem classifiers_normalized (ns k ns2 k2 : String)
    (h : normalizeDigits (joinNS ns k) = normalizeDigits (joinNS ns2 k2)) :
    is_ignore_key ns k = is_ignore_key ns2 k2 ∧
    is_null_ok ns k = is_null_ok ns2 k2 ∧
    is_false_ok ns k = is_false_ok ns2 k2 := by
  rw [is_ignore_key, is_ignore_key, is_null_ok, is_null_ok, is_false_ok, is_false_ok, h]
  exact ⟨rfl, rfl, rfl⟩

theorem goNorm_template (id jd : List Char) (hi : id ≠ []) (hid : ∀ c ∈ id, c.isDigit = true)
    (hj : jd ≠ []) (hjd : ∀ c ∈ jd, c.isDigit = true) :
    goNorm false ("threads.".data ++ (id ++ (".frames.".data ++ (jd ++ ".line".data))))
      = "threads.N.frames.N.line".data := by
  rw [goNorm_nondigit_front "threads.".data _ false (by decide) (by decide)]
  rw [goNorm_digit_run id _ hi hid]
  rw [goNorm_nondigit_front ".frames.".data _ true (by decide) (by decide)]
  rw [goNorm_digit_run jd _ hj hjd]
  decide

theorem normalize_template (i j : String) (hi : i.data ≠ []) (hid : ∀ c ∈ i.data, c.isDigit = true)
    (hj : j.data ≠ []) (hjd : ∀ c ∈ j.data, c.isDigit = true) :
    normalizeDigits (joinNS ("threads." ++ i ++ ".frames." ++ j) "line")
      = "threads.N.frames.N.line" := by
  have hne : ("threads." ++ i ++ ".frames." ++ j) ≠ "" := by
    intro h
    have h2 := congrArg String.data h
    rw [String.data_append, String.data_append, String.data_append] at h2
    rcases List.append_eq_nil.mp h2 with ⟨h3, _⟩
    rcases List.append_eq_nil.mp h3 with ⟨h4, _⟩
    rcases List.append_eq_nil.mp h4 with ⟨h5, _⟩
    exact absurd h5 (by decide)
  have hd : (joinNS ("threads." ++ i ++ ".frames." ++ j) "line").data
      = "threads.".data ++ (i.data ++ (".frames.".data ++ (j.data ++ ".line".data))) := by
    rw [joinNS, if_neg hne]
    simp only [String.data_append, List.append_assoc]
    rw [(by decide : (".".data ++ "line".data : List Char) = ".line".data)]
  exact String.ext (by
    rw [normalizeDigits_data, hd]
    exact goNorm_template i.data j.data hi hid hj hjd)

theorem string_take_append_left (a b : String) : (a ++ b).take a.length = a := by
  apply String.ext
  rw [String.data_take, String.data_append]
  show List.take a.data.length (a.data ++ b.data) = a.data
  exact List.take_left a.data b.data

theorem string_take_take (s : String) (n : Nat) : (s.take n).take n = s.take n := by
  apply String.ext
  rw [String.data_take, String.data_take, List.take_take]
  simp

theorem mk_replicate_length (w : Nat) : (String.mk (List.replicate w ' ')).length = w := by
  show (List.replicate w ' ').length = w
  exact List.length_replicate w ' '

theorem padTo_length (s : String) (w : Nat) : (padTo s w).length = max s.length w := by
  rw [padTo, String.length_append, mk_replicate_length]
  omega

theorem take_length_min (s : String) (n : Nat) : (s.take n).length = min n s.length := by
  show (s.take n).data.length = min n s.length
  rw [String.data_take, List.length_take]
  rfl

theorem print_line_starts_with_key (k l i r : String) :
    (print_line k l i r).take k.length = k := by
  have h1 : print_line k l i r
      = k ++ (String.mk (List.replicate (50 - k.length) ' ') ++ "  " ++
          padTo (l.take TRIM) TRIM ++ "  " ++ i ++ "  " ++ r.take TRIM) := by
    rw [print_line, padTo]
    apply String.ext
    simp [String.data_append, List.append_assoc]
  rw [h1, string_take_append_left]

theorem print_line_trim_idem (k l i r : String) :
    print_line k l i r = print_line k (l.take TRIM) i (r.take TRIM) := by
  rw [print_line, print_line, string_take_take, string_take_take]

theorem print_line_length (k l i r : String) :
    (print_line k l i r).length =
      max k.length 50 + 2 + 80 + 2 + i.length + 2 + min 80 r.length := by
  have h2 : ("  " : String).length = 2 := by decide
  rw [print_line]
  simp only [String.length_append, h2]
  rw [padTo_length, padTo_length, take_length_min, take_length_min]
  simp only [TRIM]
  omega

theorem dedupKeys_pair (k : String) : dedupKeys [k, k] = [k] := by
  simp [dedupKeys, dedupAux]

theorem lookupD_singleton (k : String) (v : Value) : lookupD [(k, v)] k = some v := by
  simp [lookupD, List.find?]

theorem comparator_null_vs (k : String) (rv : Value) (h : rv.isNull = false) :
    getComparator k Value.null rv = Except.ok false := by
  have hp : pyEq Value.null rv = false := by
    cases rv <;> simp [pyEq, beqV, Value.isNull] at h ⊢
  by_cases hkc : k ∈ KEY_COMPARE
  · simp [getComparator, hkc, compare_hex, Value.isNull, hp]
  · simp [getComparator, hkc, compare_misc, hp]

/-- Claim C2.  The hex comparator treats `"0x1A"` and `"1a"` as equal and
`None`/`None` as equal, and reports `None` against `"5"` as not equal;
but on `compare("offset", "not-hex", "5")` the code does NOT return "not
equal": `int("not-hex", base=16)` raises `ValueError`, and the
comparator's `except` clause only catches `TypeError`, so the exception
escapes (the claim's third case describes the intent, not the code). -/
theorem claim2_eval :
    compare_hex "offset" (Value.str "0x1A") (Value.str "1a") = Except.ok true ∧
    compare_hex "offset" Value.null Value.null = Except.ok true ∧
    compare_hex "offset" Value.null (Value.str "5") = Except.ok false ∧
    compare_hex "offset" (Value.str "not-hex") (Value.str "5") = Except.error "ValueError" :=
  ⟨rfl, rfl, rfl, rfl⟩

set_option maxRecDepth 10000 in
/-- Claim C3.  In `diff_lists` the leaves are always compared with
`compare_misc` (plain equality): the source computes
`namespace.split(".")[-1]` but passes it to `compare_misc` directly
instead of looking it up in `KEY_COMPARE`.  So even under a namespace
whose last segment is `offset`, the hex-equal pair `"0x1A"`/`"1a"`
produces a `|` divergence line, although `compare_hex` would call them
equal — the claimed comparator lookup does not happen. -/
theorem claim3_eval :
    diff_lists "offset" (Value.arr [Value.str "0x1A"]) (Value.arr [Value.str "1a"]) false
      = ([print_line "offset.0" (fix_value (Value.str "0x1A")) "|"
            (fix_value (Value.str "1a"))], none) ∧
    compare_hex "offset" (Value.str "0x1A") (Value.str "1a") = Except.ok true := by
  constructor
  · decide
  · rfl

/-- Claim C5.  Per-key behaviour of `diff_dicts` on a non-ignored key:
a key only on the left is suppressed exactly when its value is null on a
null-ok path or `False` on a false-ok path, else printed as a `>` line;
a key only on the right is always printed as a `<` line; and a key
present on both sides with a null left value and a non-null scalar right
value always produces a `|` divergence — the null-ok/false-ok tables
never suppress the both-present case. -/
theorem claim5_dict_key_behavior :
    ∀ (recD recL : RecFn) (ns : String) (lkvs rkvs : List (String × Value))
      (recurse : Bool) (k : String) (lv rv : Value),
      is_ignore_key ns k = false →
      ((lookupD lkvs k = some lv → lookupD rkvs k = none →
        diffKeyGo recD recL ns lkvs rkvs recurse k =
          (if lv.isNull && is_null_ok ns k then ([], none)
           else if lv.isFalse && is_false_ok ns k then ([], none)
           else ([print_line (joinNS ns k) (fix_value lv) ">" ""], none))) ∧
       (lookupD lkvs k = none → lookupD rkvs k = some rv →
        diffKeyGo recD recL ns lkvs rkvs recurse k =
          ([print_line (joinNS ns k) "" "<" (fix_value rv)], none)) ∧
       (lookupD lkvs k = some Value.null → lookupD rkvs k = some rv →
        rv.isNull = false → rv.isDict = false → rv.isArr = false →
        diffKeyGo recD recL ns lkvs rkvs recurse k =
          ([print_line (joinNS ns k) (fix_value Value.null) "|" (fix_value rv)], none))) := by
  intro recD recL ns lkvs rkvs recurse k lv rv hig
  refine ⟨?_, ?_, ?_⟩
  · intro hla hlb
    exact diffKeyGo_left_only recD recL ns lkvs rkvs recurse k lv hig hla hlb
  · intro hla hlb
    exact diffKeyGo_right_only recD recL ns lkvs rkvs recurse k rv hig hla hlb
  · intro hla hlb hn hd ha
    rw [diffKeyGo_both_leaf recD recL ns lkvs rkvs recurse k Value.null rv hig hla hlb
      (by simp only [hd, Bool.or_false]; rfl) (by simp only [ha, Bool.or_false]; rfl)]
    rw [comparator_null_vs k rv hn]

/-- Witness for claim C5: a null `crashing_thread.thread_name` only on
the left is suppressed; a key only on the right always prints `<`; a
both-present null-versus-number pair prints `|`. -/
theorem claim5_witness :
    diffKeyGo (fun _ _ _ => ([], none)) (fun _ _ _ => ([], none)) "crashing_thread"
        [("thread_name", Value.null)] [] false "thread_name" = ([], none) ∧
    diffKeyGo (fun _ _ _ => ([], none)) (fun _ _ _ => ([], none)) ""
        [] [("pid", Value.num 1)] false "pid"
      = ([print_line "pid" "" "<" (fix_value (Value.num 1))], none) ∧
    diffKeyGo (fun _ _ _ => ([], none)) (fun _ _ _ => ([], none)) ""
        [("pid", Value.null)] [("pid", Value.num 3)] false "pid"
      = ([print_line "pid" (fix_value Value.null) "|" (fix_value (Value.num 3))], none) := by
  refine ⟨?_, ?_, ?_⟩
  · rw [(claim5_dict_key_behavior (fun _ _ _ => ([], none)) (fun _ _ _ => ([], none))
      "crashing_thread" [("thread_name", Value.null)] [] false "thread_name"
      Value.null Value.null (by decide)).1 rfl rfl]
    decide
  · rw [(claim5_dict_key_behavior (fun _ _ _ => ([], none)) (fun _ _ _ => ([], none))
      "" [] [("pid", Value.num 1)] false "pid" Value.null (Value.num 1)
      (by decide)).2.1 rfl rfl]
    rfl
  · rw [(claim5_dict_key_behavior (fun _ _ _ => ([], none)) (fun _ _ _ => ([], none))
      "" [("pid", Value.null)] [("pid", Value.num 3)] false "pid" Value.null (Value.num 3)
      (by decide)).2.2 rfl rfl rfl rfl rfl]
    rfl

/-- Claim C6.  A key whose joined, digit-normalized path is in
`IGNORE_KEYS` is skipped before anything else happens: the per-key body
emits nothing for arbitrary dictionaries and arbitrary recursion
callbacks (so nothing inside the key's subtree is visited either), and a
one-key `diff_dicts` over such a key emits nothing for any pair of
values, however different. -/
theorem claim6_ignored_key :
    ∀ (recD recL : RecFn) (ns : String) (lkvs rkvs : List (String × Value))
      (recurse : Bool) (k : String),
      is_ignore_key ns k = true →
      (diffKeyGo recD recL ns lkvs rkvs recurse k = ([], none) ∧
       ∀ lv rv : Value,
         diff_dicts ns (Value.dict [(k, lv)]) (Value.dict [(k, rv)]) recurse = ([], none)) := by
  intro recD recL ns lkvs rkvs recurse k hig
  constructor
  · exact diffKeyGo_ignored recD recL ns lkvs rkvs recurse k hig
  · intro lv rv
    simp only [diff_dicts, diffFuel, diffDictsGo, List.map_cons, List.map_nil,
      List.singleton_append]
    rw [dedupKeys_pair]
    simp [diffKeysGo, diffKeyGo_ignored _ _ ns [(k, lv)] [(k, rv)] recurse k hig]

/-- Witness for claim C6: differing values under the ignored root key
`stackwalk_version` and under `modules.3.missing_symbols` (an ignored
path reached through digit normalization) produce no output. -/
theorem claim6_witness :
    diff_dicts "" (Value.dict [("stackwalk_version", Value.str "5")])
        (Value.dict [("stackwalk_version", Value.str "6")]) true = ([], none) ∧
    diffKeyGo (fun _ _ _ => ([], none)) (fun _ _ _ => ([], none)) "modules.3"
        [("missing_symbols", Value.num 4)] [("missing_symbols", Value.num 9)] true
        "missing_symbols" = ([], none) :=
  ⟨(claim6_ignored_key (fun _ _ _ => ([], none)) (fun _ _ _ => ([], none)) ""
      [] [] true "stackwalk_version" (by decide)).2 (Value.str "5") (Value.str "6"),
   (claim6_ignored_key (fun _ _ _ => ([], none)) (fun _ _ _ => ([], none)) "modules.3"
      [("missing_symbols", Value.num 4)] [("missing_symbols", Value.num 9)] true
      "missing_symbols" (by decide)).1⟩

set_option maxRecDepth 10000 in
/-- Claim C8 counterexample.  The path column is NOT truncated: Python's
`f"{key:50}"` is a minimum width.  For a 51-character path the first 51
characters of the emitted line are the whole path, and truncating the
path to 50 characters would have changed it. -/
theorem claim8_counterexample :
    (String.mk (List.replicate 51 'a')).length = 51 ∧
    (print_line (String.mk (List.replicate 51 'a')) "x" ">" "y").take 51
      = String.mk (List.replicate 51 'a') ∧
    (String.mk (List.replicate 51 'a')).take 50 ≠ String.mk (List.replicate 51 'a') := by
  refine ⟨by decide, ?_, by decide⟩
  decide

/-- Claim C8 (amended).  Each divergence line starts with the full
dotted path — left-aligned and space-padded to the 50-column width but
never truncated — followed by the left rendering truncated to 80
characters and padded to 80 columns, the one-character indicator, and
the right rendering truncated to 80 characters; only the first 80
characters of either value rendering matter, and the line's length is
`max |path| 50 + 2 + 80 + 2 + |indicator| + 2 + min 80 |right|`. -/
theorem claim8_amended (k l i r : String) :
    (print_line k l i r).take k.length = k ∧
    print_line k l i r = print_line k (l.take 80) i (r.take 80) ∧
    (print_line k l i r).length
      = max k.length 50 + 2 + 80 + 2 + i.length + 2 + min 80 r.length := by
  refine ⟨print_line_starts_with_key k l i r, ?_, print_line_length k l i r⟩
  have h := print_line_trim_idem k l i r
  simpa only [TRIM] using h

/-- Claim C9.  In `diff_lists`, a null on one side of an aligned
position — whether an actual null element or the `zip_longest` padding
sentinel, which is the same `None` — yields a one-sided `>`/`<` line
rendered with `str()`, with no comparator call and no recursion (the
output is fixed even for mapping values and arbitrary callbacks); both
sides null yields nothing; and the padding beyond the shorter list's end
is exactly a null partner. -/
theorem claim9_null_positions :
    ∀ (recD recL : RecFn) (ns : String) (recurse : Bool) (i : Nat) (lv rv : Value),
      (lv.isNull = false → rv.isNull = true →
        diffElemGo recD recL ns recurse i lv rv
          = ([print_line (ns ++ "." ++ toString i) (pyStr lv) ">" ""], none)) ∧
      (lv.isNull = true → rv.isNull = false →
        diffElemGo recD recL ns recurse i lv rv
          = ([print_line (ns ++ "." ++ toString i) "" "<" (pyStr rv)], none)) ∧
      (lv.isNull = true → rv.isNull = true →
        diffElemGo recD recL ns recurse i lv rv = ([], none)) ∧
      (zipLongest [lv] [] = [(lv, Value.null)] ∧ zipLongest [] [rv] = [(Value.null, rv)]) := by
  intro recD recL ns recurse i lv rv
  refine ⟨?_, ?_, ?_, by simp [zipLongest], by simp [zipLongest]⟩
  · intro hn1 hn2
    exact diffElemGo_left_only recD recL ns recurse i lv rv hn1 hn2
  · intro hn1 hn2
    exact diffElemGo_right_only recD recL ns recurse i lv rv hn1 hn2
  · intro hn1 hn2
    rw [isNull_eq lv hn1, isNull_eq rv hn2]
    exact diffElemGo_both_null recD recL ns recurse i

/-- Witness for claim C9: a mapping element aligned with the padding
sentinel prints a `>` line without being entered; a null element aligned
with a number prints a `<` line; two aligned nulls print nothing. -/
theorem claim9_witness :
    diffElemGo (fun _ _ _ => ([], none)) (fun _ _ _ => ([], none)) "threads" true 0
        (Value.dict [("frames", Value.arr [])]) Value.null
      = ([print_line "threads.0" (pyStr (Value.dict [("frames", Value.arr [])])) ">" ""], none) ∧
    diffElemGo (fun _ _ _ => ([], none)) (fun _ _ _ => ([], none)) "threads" true 1
        Value.null (Value.num 7)
      = ([print_line "threads.1" "" "<" (pyStr (Value.num 7))], none) ∧
    diffElemGo (fun _ _ _ => ([], none)) (fun _ _ _ => ([], none)) "threads" true 2
        Value.null Value.null = ([], none) :=
  ⟨(claim9_null_positions (fun _ _ _ => ([], none)) (fun _ _ _ => ([], none)) "threads" true 0
      (Value.dict [("frames", Value.arr [])]) Value.null).1 (by decide) (by decide),
   (claim9_null_positions (fun _ _ _ => ([], none)) (fun _ _ _ => ([], none)) "threads" true 1
      Value.null (Value.num 7)).2.1 (by decide) (by decide),
   (claim9_null_positions (fun _ _ _ => ([], none)) (fun _ _ _ => ([], none)) "threads" true 2
      Value.null Value.null).2.2.1 (by decide) (by decide)⟩
set_option maxRecDepth 10000 in
/-- Claim C1 counterexample.  Self-diffing is NOT always silent: for the
document `{"offset": 5}` the driver's root `diff_dicts` picks
`compare_hex` for the key `offset`, which returns False on the non-string
`5` (the caught `TypeError` branch), so an identical pair of documents
produces a `|` divergence line; and for `{"offset": "zz"}` the self-diff
does not even finish — `int("zz", base=16)` raises an uncaught
`ValueError`. -/
theorem claim1_counterexample :
    (driver_diff (Value.dict [("offset", Value.num 5)])
        (Value.dict [("offset", Value.num 5)])).1
      = [print_line "offset" (fix_value (Value.num 5)) "|" (fix_value (Value.num 5))] ∧
    (driver_diff (Value.dict [("offset", Value.num 5)])
        (Value.dict [("offset", Value.num 5)])).1 ≠ [] ∧
    (driver_diff (Value.dict [("offset", Value.str "zz")])
        (Value.dict [("offset", Value.str "zz")])).2 = some "ValueError" := by
  refine ⟨by decide, by decide, by decide⟩

/-- Claim C1 (amended).  Self-diffing a document through the driver's
fixed sequence emits zero lines and no exception provided the document is
clean for self-comparison: every non-ignored value reached at a
`KEY_COMPARE` key (`module_offset`/`offset`/`function_offset`) is null or
a base-16-parseable string, the `crash_info`/`system_info`/`sensitive`/
`crashing_thread` members are mappings when present, `threads` is
iterable, and the module lists sort cleanly by `module_key`. -/
theorem claim1_amended (d : Value) (h : cleanDoc d = true) :
    driver_diff d d = ([], none) :=
  driver_diff_self_clean d h

set_option maxRecDepth 10000 in
/-- Witness for claim C1: a representative document — hex-string frame
offsets, nested thread frames, unsorted modules — self-diffs to no output
and no exception. -/
theorem claim1_witness :
    cleanDoc (Value.dict
      [("pid", Value.num 123),
       ("status", Value.str "OK"),
       ("crash_info", Value.dict
         [("type", Value.str "SIGSEGV"), ("address", Value.str "0x7ff0")]),
       ("system_info", Value.dict [("os", Value.str "Linux")]),
       ("crashing_thread", Value.dict
         [("frames", Value.arr
           [Value.dict [("offset", Value.str "0x1a2b"), ("trust", Value.str "context")]])]),
       ("threads", Value.arr [Value.dict [("frame_count", Value.num 1)]]),
       ("modules", Value.arr
         [Value.dict [("filename", Value.str "b.dll")],
          Value.dict [("filename", Value.str "a.dll")]])]) = true ∧
    driver_diff (Value.dict
      [("pid", Value.num 123),
       ("status", Value.str "OK"),
       ("crash_info", Value.dict
         [("type", Value.str "SIGSEGV"), ("address", Value.str "0x7ff0")]),
       ("system_info", Value.dict [("os", Value.str "Linux")]),
       ("crashing_thread", Value.dict
         [("frames", Value.arr
           [Value.dict [("offset", Value.str "0x1a2b"), ("trust", Value.str "context")]])]),
       ("threads", Value.arr [Value.dict [("frame_count", Value.num 1)]]),
       ("modules", Value.arr
         [Value.dict [("filename", Value.str "b.dll")],
          Value.dict [("filename", Value.str "a.dll")]])])
      (Value.dict
      [("pid", Value.num 123),
       ("status", Value.str "OK"),
       ("crash_info", Value.dict
         [("type", Value.str "SIGSEGV"), ("address", Value.str "0x7ff0")]),
       ("system_info", Value.dict [("os", Value.str "Linux")]),
       ("crashing_thread", Value.dict
         [("frames", Value.arr
           [Value.dict [("offset", Value.str "0x1a2b"), ("trust", Value.str "context")]])]),
       ("threads", Value.arr [Value.dict [("frame_count", Value.num 1)]]),
       ("modules", Value.arr
         [Value.dict [("filename", Value.str "b.dll")],
          Value.dict [("filename", Value.str "a.dll")]])]) = ([], none) :=
  ⟨by decide,
   claim1_amended (Value.dict
      [("pid", Value.num 123),
       ("status", Value.str "OK"),
       ("crash_info", Value.dict
         [("type", Value.str "SIGSEGV"), ("address", Value.str "0x7ff0")]),
       ("system_info", Value.dict [("os", Value.str "Linux")]),
       ("crashing_thread", Value.dict
         [("frames", Value.arr
           [Value.dict [("offset", Value.str "0x1a2b"), ("trust", Value.str "context")]])]),
       ("threads", Value.arr [Value.dict [("frame_count", Value.num 1)]]),
       ("modules", Value.arr
         [Value.dict [("filename", Value.str "b.dll")],
          Value.dict [("filename", Value.str "a.dll")]])]) (by decide)⟩
set_option maxRecDepth 10000 in
/-- Claim C4 counterexample.  On the claim's example pair the sort is a
no-op: `[{"filename":"b"}]` and `[{"filename":"a"},{"filename":"b"}]` are
each already sorted by `module_key` (the sorts return them unchanged), so
sorting does NOT make the equal elements align — the sorted diff is the
same strictly positional diff and still reports a `|` divergence inside
position 0 and a `<` line at position 1. -/
theorem claim4_counterexample :
    sortModules [Value.dict [("filename", Value.str "b")]]
      = some [Value.dict [("filename", Value.str "b")]] ∧
    sortModules [Value.dict [("filename", Value.str "a")],
                 Value.dict [("filename", Value.str "b")]]
      = some [Value.dict [("filename", Value.str "a")],
              Value.dict [("filename", Value.str "b")]] ∧
    diff_lists "modules" (Value.arr [Value.dict [("filename", Value.str "b")]])
        (Value.arr [Value.dict [("filename", Value.str "a")],
                    Value.dict [("filename", Value.str "b")]]) true
      = ([print_line "modules.0.filename" (fix_value (Value.str "b"))
            "|" (fix_value (Value.str "a")),
          print_line "modules.1" "" "<" (pyStr (Value.dict [("filename", Value.str "b")]))],
         none) := by
  refine ⟨by decide, by decide, by decide⟩

set_option maxRecDepth 10000 in
/-- Claim C4 (amended).  List comparison is strictly positional: the
example pair diverges at both positions (a `|` line inside the aligned,
unequal position 0 and a one-sided `<` line at position 1), and this is
unchanged by the driver's `module_key` sort because both example lists
are already sorted.  What the sort does guarantee is alignment of lists
that are equal up to permutation: `[b, a]` against `[a, b]` sorts to
identical lists and diffs to zero lines. -/
theorem claim4_amended :
    diff_lists "modules" (Value.arr [Value.dict [("filename", Value.str "b")]])
        (Value.arr [Value.dict [("filename", Value.str "a")],
                    Value.dict [("filename", Value.str "b")]]) true
      = ([print_line "modules.0.filename" (fix_value (Value.str "b"))
            "|" (fix_value (Value.str "a")),
          print_line "modules.1" "" "<" (pyStr (Value.dict [("filename", Value.str "b")]))],
         none) ∧
    sortModules [Value.dict [("filename", Value.str "b"), ("code_id", Value.str "2")],
                 Value.dict [("filename", Value.str "a"), ("code_id", Value.str "1")]]
      = some [Value.dict [("filename", Value.str "a"), ("code_id", Value.str "1")],
              Value.dict [("filename", Value.str "b"), ("code_id", Value.str "2")]] ∧
    diff_lists "modules"
        (Value.arr [Value.dict [("filename", Value.str "a"), ("code_id", Value.str "1")],
                    Value.dict [("filename", Value.str "b"), ("code_id", Value.str "2")]])
        (Value.arr [Value.dict [("filename", Value.str "a"), ("code_id", Value.str "1")],
                    Value.dict [("filename", Value.str "b"), ("code_id", Value.str "2")]]) true
      = ([], none) := by
  refine ⟨by decide, by decide, by decide⟩
/-- Claim C7.  The three path classifiers are pure functions of the
joined path after every maximal run of decimal digits is collapsed to the
single token `N`: two namespace/key pairs with the same normalization
classify identically; and for any two (nonempty, all-digit) index strings
`i` and `j`, `threads.<i>.frames.<j>` joined with `line` normalizes to
the index-free template `threads.N.frames.N.line` and is accepted by the
null-ok table. -/
theorem claim7_classifiers :
    (∀ ns k ns2 k2 : String,
      normalizeDigits (joinNS ns k) = normalizeDigits (joinNS ns2 k2) →
      is_ignore_key ns k = is_ignore_key ns2 k2 ∧
      is_null_ok ns k = is_null_ok ns2 k2 ∧
      is_false_ok ns k = is_false_ok ns2 k2) ∧
    (∀ i j : String, i.data ≠ [] → (∀ c ∈ i.data, c.isDigit = true) →
      j.data ≠ [] → (∀ c ∈ j.data, c.isDigit = true) →
      normalizeDigits (joinNS ("threads." ++ i ++ ".frames." ++ j) "line")
        = "threads.N.frames.N.line" ∧
      is_null_ok ("threads." ++ i ++ ".frames." ++ j) "line" = true) := by
  constructor
  · exact classifiers_normalized
  · intro i j hi hid hj hjd
    have hn := normalize_template i j hi hid hj hjd
    refine ⟨hn, ?_⟩
    rw [is_null_ok, hn]
    decide

/-- Witness for claim C7: `threads.3.frames.12.line` and
`threads.0.frames.7.line` both normalize to `threads.N.frames.N.line`
and are null-ok, and an ignored module path classifies the same at
indices 44 and 0. -/
theorem claim7_witness :
    (normalizeDigits (joinNS ("threads." ++ "3" ++ ".frames." ++ "12") "line")
        = "threads.N.frames.N.line" ∧
      is_null_ok ("threads." ++ "3" ++ ".frames." ++ "12") "line" = true) ∧
    (normalizeDigits (joinNS ("threads." ++ "0" ++ ".frames." ++ "7") "line")
        = "threads.N.frames.N.line" ∧
      is_null_ok ("threads." ++ "0" ++ ".frames." ++ "7") "line" = true) ∧
    is_ignore_key "modules.44" "symbol_fetch_time"
      = is_ignore_key "modules.0" "symbol_fetch_time" :=
  ⟨claim7_classifiers.2 "3" "12" (by decide) (by decide) (by decide) (by decide),
   claim7_classifiers.2 "0" "7" (by decide) (by decide) (by decide) (by decide),
   (claim7_classifiers.1 "modules.44" "symbol_fetch_time"
      "modules.0" "symbol_fetch_time" (by decide)).1⟩
set_option maxRecDepth 10000 in
/-- Claim C10 counterexample.  Shape agreement alone does NOT make the
recursive differ total: `{"offset": "zz"}` against `{"offset": "5"}`
agrees in shape at every shared key (both values are scalars), yet
`diff_dicts` raises — `compare_hex` calls `int("zz", base=16)`, whose
`ValueError` is not caught.  Totality additionally needs every shared
`KEY_COMPARE` leaf pair to be hex-safe. -/
theorem claim10_counterexample :
    shapeAgree (Value.dict [("offset", Value.str "zz")])
        (Value.dict [("offset", Value.str "5")]) = true ∧
    (diff_dicts "" (Value.dict [("offset", Value.str "zz")])
        (Value.dict [("offset", Value.str "5")]) true).2 = some "ValueError" := by
  refine ⟨by decide, by decide⟩

/-- Claim C10 (amended).  Under shape agreement (at every shared key and
every aligned non-null list position, a mapping faces a mapping and a
sequence faces a sequence) AND hex-safety (every shared `KEY_COMPARE`
leaf pair cannot make `compare_hex` raise), recursive `diff_dicts` and
`diff_lists` finish with no exception; a shared key where either side is
a mapping is recursed into as a mapping pair (both values passed to
`diff_dicts` as-is); and `diff_dicts` on a pair that is not two mappings
fails immediately with `AttributeError` — the mapping-versus-scalar
failure the claim describes. -/
theorem claim10_amended :
    (∀ (ns : String) (rec : Bool) (a b : List (String × Value)),
      shapeAgree (Value.dict a) (Value.dict b) = true →
      hexAgree (Value.dict a) (Value.dict b) = true →
      (diff_dicts ns (Value.dict a) (Value.dict b) rec).2 = none) ∧
    (∀ (ns : String) (rec : Bool) (xs ys : List Value),
      shapeAgree (Value.arr xs) (Value.arr ys) = true →
      hexAgree (Value.arr xs) (Value.arr ys) = true →
      (diff_lists ns (Value.arr xs) (Value.arr ys) rec).2 = none) ∧
    (∀ (recD recL : RecFn) (ns : String) (lkvs rkvs : List (String × Value))
       (k : String) (lv rv : Value),
      is_ignore_key ns k = false →
      lookupD lkvs k = some lv → lookupD rkvs k = some rv →
      (lv.isDict || rv.isDict) = true →
      diffKeyGo recD recL ns lkvs rkvs true k = recD (joinNS ns k) lv rv) ∧
    (∀ (ns : String) (rec : Bool) (l r : Value),
      (l.isDict && r.isDict) = false →
      diff_dicts ns l r rec = ([], some "AttributeError")) := by
  refine ⟨?_, ?_, ?_, ?_⟩
  · intro ns rec a b hs hx
    exact diff_dicts_noerr ns rec a b hs hx
  · intro ns rec xs ys hs hx
    exact diff_lists_noerr ns rec xs ys hs hx
  · intro recD recL ns lkvs rkvs k lv rv hig hla hlb hd
    rw [diffKeyGo_both_dict recD recL ns lkvs rkvs true k lv rv hig hla hlb hd,
      if_pos rfl]
  · intro ns rec l r h
    cases l <;> cases r <;> first | rfl | simp [Value.isDict] at h

/-- Witness for claim C10: a shape- and hex-agreeing mapping pair and
sequence pair diff without exception; a shared key holding two mappings
is recursed into; a number against a mapping fails at once with
`AttributeError`. -/
theorem claim10_witness :
    (diff_dicts "t" (Value.dict [("a", Value.dict [("x", Value.num 1)])])
        (Value.dict [("a", Value.dict [("x", Value.num 2)])]) true).2 = none ∧
    (diff_lists "t" (Value.arr [Value.num 1])
        (Value.arr [Value.num 1, Value.num 2]) true).2 = none ∧
    diffKeyGo (fun _ _ _ => ([], none)) (fun _ _ _ => ([], none)) "t"
        [("a", Value.dict [("x", Value.num 1)])] [("a", Value.dict [("x", Value.num 2)])]
        true "a" = ([], none) ∧
    diff_dicts "t" (Value.num 1) (Value.dict []) true = ([], some "AttributeError") :=
  ⟨claim10_amended.1 "t" true [("a", Value.dict [("x", Value.num 1)])]
      [("a", Value.dict [("x", Value.num 2)])] (by decide) (by decide),
   claim10_amended.2.1 "t" true [Value.num 1] [Value.num 1, Value.num 2]
      (by decide) (by decide),
   claim10_amended.2.2.1 (fun _ _ _ => ([], none)) (fun _ _ _ => ([], none)) "t"
      [("a", Value.dict [("x", Value.num 1)])] [("a", Value.dict [("x", Value.num 2)])]
      "a" (Value.dict [("x", Value.num 1)]) (Value.dict [("x", Value.num 2)])
      (by decide) (by decide) (by decide) (by decide),
   claim10_amended.2.2.2 "t" true (Value.num 1) (Value.dict []) (by decide)⟩
